import Mathlib

/-!
Verification of the trinity repository core: the swap-or-not shuffle and the
altona fast-spec beacon state-transition operations
(src/eth2/beacon/state_machines/forks/altona/eth2fastspec.py), the BLS
verification wrappers, and the beam state downloader
(src/trinity/sync/beam/state.py).

Conventions of the shallow embedding:
* Python byte strings are `List Nat` (each entry one byte); machine integers
  are `Nat` (Python ints are unbounded; masks such as `& 0xFFFFFFFF` are kept
  explicitly as `% 2 ^ 32`).
* `hash_eth2` (SHA-256, imported from eth2._utils.hash, which is not part of
  the sources under verification) is passed in as an explicit function
  parameter `H : List Nat → List Nat`; every theorem holds for an arbitrary
  hash function, in particular for SHA-256.
* Python functions that can raise (`assert`, out-of-range indexing,
  `int.to_bytes` overflow) are embedded in `Except String` / `Option`.
-/

namespace Trinity

/-! ## Shuffle primitives (eth2fastspec.py lines 151-329) -/

def SHUFFLE_ROUND_COUNT : Nat := 90

/-- Little-endian interpretation of a byte list: `int.from_bytes(bs, "little")`. -/
def leBytesToNat : List Nat → Nat
  | [] => 0
  | b :: bs => b + 256 * leBytesToNat bs

/-- Four-byte little-endian serialisation of `n < 2^32`:
`n.to_bytes(4, "little")`. -/
def toLE4 (n : Nat) : List Nat :=
  [n % 256, n / 256 % 256, n / 65536 % 256, n / 16777216 % 256]

/-- The first 33 bytes of the shuffle scratch buffer: seed followed by the
round byte (`buf[:_SHUFFLE_H_PIVOT_VIEW_SIZE]` with `buf[32] = r`). -/
def pivotBuf (seed : List Nat) (r : Nat) : List Nat := seed ++ [r]

/-- The full 37-byte shuffle scratch buffer: seed, round byte, and the
4-byte little-endian position window
(`buf[33:] = ((hi) & 0xFFFF_FFFF).to_bytes(4, "little")`). -/
def posBuf (seed : List Nat) (r hi : Nat) : List Nat :=
  seed ++ [r] ++ toLE4 (hi % 2 ^ 32)

/-- Per-round pivot:
`pivot = int.from_bytes(hash_eth2(buf[:33])[:8], "little") % listSize`. -/
def shufflePivot (H : List Nat → List Nat) (seed : List Nat) (r n : Nat) : Nat :=
  leBytesToNat ((H (pivotBuf seed r)).take 8) % n

/-- Simultaneous swap `input[i], input[j] = input[j], input[i]`. -/
def lswap (l : List Nat) (i j : Nat) : List Nat :=
  (l.set i (l.getD j 0)).set j (l.getD i 0)

/-- One mirrored half-pass of `_inner_shuffle_list`: the
`while i < mirror` loop, threading the re-used hash output `source` and the
selected byte `byteV` exactly as the Python does (re-hash when
`j & 0xFF == 0xFF`, re-select the byte when `j & 0x7 == 0x7`).  `fuel` is the
number of remaining iterations (`mirror - i`). -/
def innerLoop (H : List Nat → List Nat) (seed : List Nat) (r : Nat) :
    Nat → Nat → Nat → List Nat → Nat → List Nat → List Nat
  | 0, _, _, _, _, l => l
  | fuel + 1, i, j, source, byteV, l =>
    let source := if j % 256 == 255 then H (posBuf seed r (j / 256)) else source
    let byteV := if j % 8 == 7 then source.getD (j % 256 / 8) 0 else byteV
    let bitV := byteV >>> (j % 8) % 2
    let l := if bitV = 1 then lswap l i j else l
    innerLoop H seed r fuel (i + 1) (j - 1) source byteV l

/-- One round of `_inner_shuffle_list` (the body of the `while True` loop):
pivot derivation and the two mirrored half-passes.  `n` is `listSize`
(bound once, before the round loop). -/
def shuffleRound (H : List Nat → List Nat) (seed : List Nat) (n r : Nat)
    (l : List Nat) : List Nat :=
  let pivot := shufflePivot H seed r n
  let mirror := (pivot + 1) / 2
  let source := H (posBuf seed r (pivot / 256))
  let byteV := source.getD (pivot % 256 / 8) 0
  let l1 := innerLoop H seed r mirror 0 pivot source byteV l
  let mirror2 := (pivot + n + 1) / 2
  let e := n - 1
  let source2 := H (posBuf seed r (e / 256))
  let byteV2 := source2.getD (e % 256 / 8) 0
  innerLoop H seed r (mirror2 - (pivot + 1)) (pivot + 1) e source2 byteV2 l1

/-- `_inner_shuffle_list`: runs the 90 rounds forward (`dir = true`,
rounds `0..89`) or backward (`dir = false`, rounds `89..0`); lists of length
at most one are returned unchanged. -/
def _inner_shuffle_list (H : List Nat → List Nat) (input : List Nat)
    (seed : List Nat) (dir : Bool) : List Nat :=
  if input.length ≤ 1 then input
  else
    let rounds := if dir then List.range SHUFFLE_ROUND_COUNT
                  else (List.range SHUFFLE_ROUND_COUNT).reverse
    rounds.foldl (fun l r => shuffleRound H seed input.length r l) input

/-- `shuffle_list(input, seed)` (the in-place mutation is returned). -/
def shuffle_list (H : List Nat → List Nat) (input seed : List Nat) : List Nat :=
  _inner_shuffle_list H input seed true

/-- `unshuffle_list(input, seed)` (the in-place mutation is returned). -/
def unshuffle_list (H : List Nat → List Nat) (input seed : List Nat) : List Nat :=
  _inner_shuffle_list H input seed false

/-- `int_to_bytes(n, length)` = `n.to_bytes(length, "little")`; raises
`OverflowError` (here: `none`) when `n ≥ 256 ^ length`. -/
def intToBytes (n len : Nat) : Option (List Nat) :=
  if n < 256 ^ len then
    some ((List.range len).map fun k => n / 256 ^ k % 256)
  else none

/-- One round of `compute_shuffled_index` (loop body of the
`for current_round in range(SHUFFLE_ROUND_COUNT)` loop). -/
def shuffledIndexRound (H : List Nat → List Nat) (seed : List Nat)
    (index_count r index : Nat) : Option Nat := do
  let pivot := leBytesToNat ((H (seed ++ [r])).take 8) % index_count
  let flip := (pivot + index_count - index) % index_count
  let position := max index flip
  let posBytes ← intToBytes (position / 256) 4
  let source := H (seed ++ [r] ++ posBytes)
  let byte := source.getD (position % 256 / 8) 0
  let bit := byte >>> (position % 8) % 2
  some (if bit = 1 then flip else index)

/-- `compute_shuffled_index(index, index_count, seed)`: the per-index
swap-or-not walk over rounds `0..89`; `none` on the initial
`assert index < index_count` failure or on `int_to_bytes` overflow. -/
def compute_shuffled_index (H : List Nat → List Nat) (index index_count : Nat)
    (seed : List Nat) : Option Nat :=
  if index_count ≤ index then none
  else (List.range SHUFFLE_ROUND_COUNT).foldlM
    (fun idx r => shuffledIndexRound H seed index_count r idx) index

/-! ### Proof layer for the shuffle: list/`set` helper lemmas -/

theorem getD_set_ne {α} (x d : α) :
    ∀ (l : List α) (i j : Nat), i ≠ j → (l.set i x).getD j d = l.getD j d := by
  intro l
  induction l with
  | nil => intro i j _; rfl
  | cons a l ih =>
    intro i j hij
    cases i with
    | zero =>
      cases j with
      | zero => exact absurd rfl hij
      | succ j => rfl
    | succ i =>
      cases j with
      | zero => rfl
      | succ j =>
        simpa using ih i j (by omega)

theorem getD_set_self {α} (x d : α) :
    ∀ (l : List α) (i : Nat), i < l.length → (l.set i x).getD i d = x := by
  intro l
  induction l with
  | nil => intro i h; simp at h
  | cons a l ih =>
    intro i h
    cases i with
    | zero => rfl
    | succ i => simpa using ih i (by simpa using h)

theorem set_getD_self {α} (d : α) :
    ∀ (l : List α) (i : Nat), i < l.length → l.set i (l.getD i d) = l := by
  intro l
  induction l with
  | nil => intro i h; simp at h
  | cons a l ih =>
    intro i h
    cases i with
    | zero => rfl
    | succ i => simpa using ih i (by simpa using h)

theorem length_lswap (l : List Nat) (i j : Nat) : (lswap l i j).length = l.length := by
  simp [lswap]

theorem lswap_getD_fst (l : List Nat) {i j : Nat} (hi : i < l.length)
    (hij : i ≠ j) : (lswap l i j).getD i 0 = l.getD j 0 := by
  unfold lswap
  rw [getD_set_ne _ _ _ j i (by omega), getD_set_self _ _ _ _ hi]

theorem lswap_getD_snd (l : List Nat) {i j : Nat} (hj : j < l.length) :
    (lswap l i j).getD j 0 = l.getD i 0 := by
  unfold lswap
  rw [getD_set_self _ _ _ _ (by simpa using hj)]

theorem lswap_getD_other (l : List Nat) {i j k : Nat} (hik : k ≠ i) (hjk : k ≠ j) :
    (lswap l i j).getD k 0 = l.getD k 0 := by
  unfold lswap
  rw [getD_set_ne _ _ _ j k (by omega), getD_set_ne _ _ _ i k (by omega)]

theorem lswap_lswap (l : List Nat) {i j : Nat} (hij : i < j) (hj : j < l.length) :
    lswap (lswap l i j) i j = l := by
  have hi : i < l.length := lt_trans hij hj
  have h1 : (lswap l i j).getD j 0 = l.getD i 0 := lswap_getD_snd l hj
  have h2 : (lswap l i j).getD i 0 = l.getD j 0 := lswap_getD_fst l hi (by omega)
  show ((lswap l i j).set i ((lswap l i j).getD j 0)).set j ((lswap l i j).getD i 0) = l
  rw [h1, h2]
  show (((l.set i (l.getD j 0)).set j (l.getD i 0)).set i (l.getD i 0)).set j (l.getD j 0) = l
  rw [List.set_comm _ _ _ (show j ≠ i by omega), List.set_set, List.set_set,
    set_getD_self _ _ _ hi, set_getD_self _ _ _ hj]

/-! ### Proof layer: a round as a pure list of conditional swaps -/

/-- The swap decision bit for position `j` in round `r`, as the spec formula:
bit `j % 8` of byte `(j % 256) / 8` of `H(seed ‖ r ‖ u32_le(j / 256))`. -/
def decisionBit (H : List Nat → List Nat) (seed : List Nat) (r j : Nat) : Nat :=
  (H (posBuf seed r (j / 256))).getD (j % 256 / 8) 0 >>> (j % 8) % 2

/-- Conditional swap of one pair, decided by the bit at the larger index. -/
def condSwap (bit : Nat → Nat) (p : Nat × Nat) (l : List Nat) : List Nat :=
  if bit p.2 = 1 then lswap l p.1 p.2 else l

/-- Apply a sequence of conditional swaps in order. -/
def applySwaps (bit : Nat → Nat) : List (Nat × Nat) → List Nat → List Nat
  | [], l => l
  | p :: ps, l => applySwaps bit ps (condSwap bit p l)

/-- The descending antidiagonal segment of pairs `(i0 + k, j0 - k)`, `k < m`:
the pairs visited by one mirrored half-pass. -/
def seg (i0 j0 m : Nat) : List (Nat × Nat) :=
  (List.range m).map fun k => (i0 + k, j0 - k)

/-- The full pair list of one shuffle round: both half-passes. -/
def roundPairs (pivot n : Nat) : List (Nat × Nat) :=
  seg 0 pivot ((pivot + 1) / 2) ++
    seg (pivot + 1) (n - 1) ((pivot + n + 1) / 2 - (pivot + 1))

theorem seg_succ (i0 j0 m : Nat) :
    seg i0 j0 (m + 1) = (i0, j0) :: seg (i0 + 1) (j0 - 1) m := by
  simp only [seg, List.range_succ_eq_map, List.map_cons, List.map_map]
  refine congrArg₂ _ (by simp) (List.map_congr_left ?_)
  intro k _
  simp [Function.comp]
  omega

theorem seg_mem {a b i0 j0 m : Nat} :
    (a, b) ∈ seg i0 j0 m ↔ ∃ k, k < m ∧ a = i0 + k ∧ b = j0 - k := by
  simp only [seg, List.mem_map, List.mem_range, Prod.mk.injEq]
  constructor
  · rintro ⟨k, hk, h1, h2⟩; exact ⟨k, hk, h1.symm, h2.symm⟩
  · rintro ⟨k, hk, h1, h2⟩; exact ⟨k, hk, h1.symm, h2.symm⟩

/-- Helper arithmetic: crossing a 256 boundary only at `j % 256 = 255`. -/
theorem succ_div_256 {j : Nat} (h : j % 256 ≠ 255) : (j + 1) / 256 = j / 256 := by
  omega

theorem succ_mod_256 {j : Nat} (h : j % 256 ≠ 255) : (j + 1) % 256 = j % 256 + 1 := by
  omega

theorem mod256_byte {j : Nat} (_h256 : j % 256 ≠ 255) (h8 : j % 8 ≠ 7) :
    (j + 1) % 256 / 8 = j % 256 / 8 := by
  omega

theorem mod256_to_mod8 {j : Nat} (h : j % 256 = 255) : j % 8 = 7 := by
  omega

/-- The threaded half-pass loop computes exactly the conditional swaps of its
antidiagonal segment, with the decision bits of `decisionBit`.  The
precondition states that `source`/`byteV` are the correctly re-used values
for the current position `j` (first iteration) or for the previous position
`j + 1` (subsequent iterations). -/
theorem innerLoop_eq_applySwaps (H : List Nat → List Nat) (seed : List Nat) (r : Nat) :
    ∀ (m i j : Nat) (source : List Nat) (byteV : Nat) (l : List Nat),
      ((source = H (posBuf seed r (j / 256)) ∧ byteV = source.getD (j % 256 / 8) 0) ∨
       (source = H (posBuf seed r ((j + 1) / 256)) ∧
        byteV = source.getD ((j + 1) % 256 / 8) 0)) →
      innerLoop H seed r m i j source byteV l =
        applySwaps (decisionBit H seed r) (seg i j m) l := by
  intro m
  induction m with
  | zero => intro i j source byteV l _; simp [innerLoop, seg, applySwaps]
  | succ m ih =>
    intro i j source byteV l hinv
    rw [seg_succ]
    simp only [innerLoop]
    have hs' : (if (j % 256 == 255) = true then H (posBuf seed r (j / 256)) else source) =
        H (posBuf seed r (j / 256)) := by
      rcases hinv with ⟨hs, _⟩ | ⟨hs, _⟩
      · by_cases h256 : j % 256 = 255 <;> simp [h256, hs]
      · by_cases h256 : j % 256 = 255
        · simp [h256]
        · simp [h256, hs, succ_div_256 h256]
    rw [hs']
    have hb' : (if (j % 8 == 7) = true then
          (H (posBuf seed r (j / 256))).getD (j % 256 / 8) 0 else byteV) =
        (H (posBuf seed r (j / 256))).getD (j % 256 / 8) 0 := by
      by_cases h8 : j % 8 = 7
      · simp [h8]
      · simp only [beq_iff_eq, h8, if_false]
        rcases hinv with ⟨hs, hb⟩ | ⟨hs, hb⟩
        · rw [hb, hs]
        · have h256 : j % 256 ≠ 255 := fun h => h8 (mod256_to_mod8 h)
          rw [hb, hs, succ_div_256 h256, mod256_byte h256 h8]
    rw [hb']
    have hrec := ih (i + 1) (j - 1) (H (posBuf seed r (j / 256)))
      ((H (posBuf seed r (j / 256))).getD (j % 256 / 8) 0)
      (if (H (posBuf seed r (j / 256))).getD (j % 256 / 8) 0 >>> (j % 8) % 2 = 1
        then lswap l i j else l) ?_
    · rw [hrec]
      rfl
    · rcases Nat.eq_zero_or_pos j with hj | hj
      · subst hj; exact Or.inl ⟨rfl, rfl⟩
      · right; rw [Nat.sub_add_cancel hj]; exact ⟨rfl, rfl⟩

/-! ### Proof layer: involutivity of one round -/

/-- Two pairs are disjoint when they share no index. -/
def PDisj (p q : Nat × Nat) : Prop :=
  p.1 ≠ q.1 ∧ p.1 ≠ q.2 ∧ p.2 ≠ q.1 ∧ p.2 ≠ q.2

theorem length_condSwap (bit : Nat → Nat) (p : Nat × Nat) (l : List Nat) :
    (condSwap bit p l).length = l.length := by
  unfold condSwap
  split <;> simp [length_lswap]

theorem length_applySwaps (bit : Nat → Nat) :
    ∀ (ps : List (Nat × Nat)) (l : List Nat), (applySwaps bit ps l).length = l.length := by
  intro ps
  induction ps with
  | nil => intro l; rfl
  | cons p ps ih => intro l; rw [applySwaps, ih, length_condSwap]

theorem condSwap_getD_other (bit : Nat → Nat) (p : Nat × Nat) (l : List Nat) {k : Nat}
    (h1 : k ≠ p.1) (h2 : k ≠ p.2) : (condSwap bit p l).getD k 0 = l.getD k 0 := by
  unfold condSwap
  split
  · exact lswap_getD_other l h1 h2
  · rfl

theorem condSwap_comm (bit : Nat → Nat) (p q : Nat × Nat) (l : List Nat)
    (h : PDisj p q) : condSwap bit p (condSwap bit q l) = condSwap bit q (condSwap bit p l) := by
  obtain ⟨h11, h12, h21, h22⟩ := h
  unfold condSwap
  by_cases hp : bit p.2 = 1 <;> by_cases hq : bit q.2 = 1 <;> simp [hp, hq]
  unfold lswap
  rw [getD_set_ne _ _ _ q.2 p.2 (by omega), getD_set_ne _ _ _ q.1 p.2 (by omega),
    getD_set_ne _ _ _ q.2 p.1 (by omega), getD_set_ne _ _ _ q.1 p.1 (by omega),
    getD_set_ne _ _ _ p.2 q.2 (by omega), getD_set_ne _ _ _ p.1 q.2 (by omega),
    getD_set_ne _ _ _ p.2 q.1 (by omega), getD_set_ne _ _ _ p.1 q.1 (by omega)]
  rw [List.set_comm _ _ _ (show q.2 ≠ p.1 by omega),
    List.set_comm _ _ _ (show q.1 ≠ p.1 by omega),
    List.set_comm _ _ _ (show q.2 ≠ p.2 by omega),
    List.set_comm _ _ _ (show q.1 ≠ p.2 by omega)]

theorem condSwap_applySwaps_comm (bit : Nat → Nat) (p : Nat × Nat) :
    ∀ (ps : List (Nat × Nat)) (l : List Nat), (∀ q ∈ ps, PDisj p q) →
      condSwap bit p (applySwaps bit ps l) = applySwaps bit ps (condSwap bit p l) := by
  intro ps
  induction ps with
  | nil => intro l _; rfl
  | cons q ps ih =>
    intro l hd
    rw [applySwaps, applySwaps, ih _ fun x hx => hd x (List.mem_cons_of_mem q hx),
      condSwap_comm bit p q l (hd q (List.mem_cons_self q ps))]

theorem condSwap_condSwap (bit : Nat → Nat) (p : Nat × Nat) (l : List Nat)
    (hlt : p.1 < p.2) (hlen : p.2 < l.length) :
    condSwap bit p (condSwap bit p l) = l := by
  unfold condSwap
  split
  · rw [lswap_lswap l hlt hlen]
  · rfl

theorem applySwaps_involution (bit : Nat → Nat) :
    ∀ (ps : List (Nat × Nat)) (l : List Nat), ps.Pairwise PDisj →
      (∀ p ∈ ps, p.1 < p.2 ∧ p.2 < l.length) →
      applySwaps bit ps (applySwaps bit ps l) = l := by
  intro ps
  induction ps with
  | nil => intro l _ _; rfl
  | cons p ps ih =>
    intro l hpw hb
    rw [List.pairwise_cons] at hpw
    rw [applySwaps, applySwaps,
      ← condSwap_applySwaps_comm bit p ps (applySwaps bit ps (condSwap bit p l)) hpw.1,
      ih (condSwap bit p l) hpw.2 ?_,
      condSwap_condSwap bit p l (hb p (List.mem_cons_self p ps)).1
        (hb p (List.mem_cons_self p ps)).2]
    intro q hq
    refine ⟨(hb q (List.mem_cons_of_mem p hq)).1, ?_⟩
    rw [length_condSwap]
    exact (hb q (List.mem_cons_of_mem p hq)).2

/-- Pairwise disjointness of an antidiagonal segment whose pairs are
strictly separated. -/
theorem seg_pairwise {i0 j0 m : Nat} (hsep : ∀ k, k < m → i0 + k < j0 - k) :
    (seg i0 j0 m).Pairwise PDisj := by
  unfold seg
  rw [List.pairwise_map]
  refine List.Pairwise.imp_of_mem ?_ (List.pairwise_lt_range m)
  intro a b ha hb hab
  rw [List.mem_range] at ha hb
  have h1 := hsep a ha
  have h2 := hsep b hb
  exact ⟨by omega, by omega, by omega, by omega⟩

theorem seg_bounds {i0 j0 m L : Nat} (hsep : ∀ k, k < m → i0 + k < j0 - k)
    (hj0 : j0 < L) : ∀ p ∈ seg i0 j0 m, p.1 < p.2 ∧ p.2 < L := by
  intro p hp
  obtain ⟨a, b⟩ := p
  rw [seg_mem] at hp
  obtain ⟨k, hk, ha, hb⟩ := hp
  have := hsep k hk
  exact ⟨by omega, by omega⟩

theorem applySwaps_append (bit : Nat → Nat) :
    ∀ (ps qs : List (Nat × Nat)) (l : List Nat),
      applySwaps bit (ps ++ qs) l = applySwaps bit qs (applySwaps bit ps l) := by
  intro ps
  induction ps with
  | nil => intro qs l; rfl
  | cons p ps ih => intro qs l; rw [List.cons_append, applySwaps, applySwaps, ih]

theorem seg1_sep {pivot : Nat} : ∀ k, k < (pivot + 1) / 2 → 0 + k < pivot - k := by
  omega

theorem seg2_sep {pivot n : Nat} :
    ∀ k, k < (pivot + n + 1) / 2 - (pivot + 1) → pivot + 1 + k < n - 1 - k := by
  omega

theorem roundPairs_pairwise {pivot n : Nat} : (roundPairs pivot n).Pairwise PDisj := by
  unfold roundPairs
  rw [List.pairwise_append]
  refine ⟨seg_pairwise seg1_sep, seg_pairwise seg2_sep, ?_⟩
  rintro ⟨a, b⟩ hp ⟨c, d⟩ hq
  rw [seg_mem] at hp hq
  obtain ⟨k, hk, ha, hb⟩ := hp
  obtain ⟨k2, hk2, hc, hd⟩ := hq
  have h1 := seg1_sep k hk
  have h2 := seg2_sep k2 hk2
  exact ⟨by omega, by omega, by omega, by omega⟩

theorem roundPairs_bounds {pivot n : Nat} (hpivot : pivot < n) :
    ∀ p ∈ roundPairs pivot n, p.1 < p.2 ∧ p.2 < n := by
  intro p hp
  unfold roundPairs at hp
  rw [List.mem_append] at hp
  rcases hp with hp | hp
  · exact seg_bounds seg1_sep hpivot p hp
  · exact seg_bounds seg2_sep (by omega) p hp

/-- A shuffle round is exactly the conditional-swap sequence of its pair
list, with the decision bits given by the spec formula. -/
theorem shuffleRound_eq (H : List Nat → List Nat) (seed : List Nat) (n r : Nat)
    (l : List Nat) :
    shuffleRound H seed n r l =
      applySwaps (decisionBit H seed r) (roundPairs (shufflePivot H seed r n) n) l := by
  simp only [shuffleRound, roundPairs]
  rw [innerLoop_eq_applySwaps H seed r _ 0 (shufflePivot H seed r n) _ _ l
      (Or.inl ⟨rfl, rfl⟩),
    innerLoop_eq_applySwaps H seed r _ (shufflePivot H seed r n + 1) (n - 1) _ _ _
      (Or.inl ⟨rfl, rfl⟩),
    applySwaps_append]

theorem shuffleRound_length (H : List Nat → List Nat) (seed : List Nat) (n r : Nat)
    (l : List Nat) : (shuffleRound H seed n r l).length = l.length := by
  rw [shuffleRound_eq, length_applySwaps]

/-- Each round is an involution: the same round applied twice restores the
list.  This is the heart of the shuffle/unshuffle inverse property. -/
theorem shuffleRound_involution (H : List Nat → List Nat) (seed : List Nat)
    {n : Nat} (r : Nat) (l : List Nat) (hlen : l.length = n) (hn : 0 < n) :
    shuffleRound H seed n r (shuffleRound H seed n r l) = l := by
  rw [shuffleRound_eq, shuffleRound_eq]
  refine applySwaps_involution _ _ _ roundPairs_pairwise ?_
  intro p hp
  have := roundPairs_bounds (Nat.mod_lt _ hn) p hp
  omega

theorem roundFold_length (H : List Nat → List Nat) (seed : List Nat) (n : Nat)
    (rs : List Nat) : ∀ l : List Nat,
      (rs.foldl (fun acc r => shuffleRound H seed n r acc) l).length = l.length := by
  induction rs with
  | nil => intro l; rfl
  | cons r rs ih =>
    intro l
    rw [List.foldl_cons, ih, shuffleRound_length]

theorem roundFold_cancel (H : List Nat → List Nat) (seed : List Nat) {n : Nat}
    (rs : List Nat) : ∀ l : List Nat, l.length = n → 0 < n →
      rs.reverse.foldl (fun acc r => shuffleRound H seed n r acc)
        (rs.foldl (fun acc r => shuffleRound H seed n r acc) l) = l := by
  induction rs with
  | nil => intro l _ _; rfl
  | cons r rs ih =>
    intro l hlen hn
    rw [List.foldl_cons, List.reverse_cons, List.foldl_append,
      ih (shuffleRound H seed n r l) (by rw [shuffleRound_length, hlen]) hn,
      List.foldl_cons, List.foldl_nil, shuffleRound_involution H seed r l hlen hn]

/-- Claim C1: `unshuffle_list` is the exact inverse of `shuffle_list` — for
every index list and every 32-byte seed (and every hash function, in
particular SHA-256), shuffling then unshuffling with the same seed, and vice
versa, restores the original list, across all `SHUFFLE_ROUND_COUNT = 90`
rounds. -/
theorem shuffle_unshuffle_roundtrip (H : List Nat → List Nat) (input seed : List Nat)
    (_hseed : seed.length = 32) :
    unshuffle_list H (shuffle_list H input seed) seed = input ∧
    shuffle_list H (unshuffle_list H input seed) seed = input := by
  unfold shuffle_list unshuffle_list _inner_shuffle_list
  by_cases hle : input.length ≤ 1
  · simp [hle]
  · have hn : 0 < input.length := by omega
    simp only [hle, if_false, if_neg hle]
    constructor
    · rw [if_neg (by rw [roundFold_length]; exact hle)]
      rw [roundFold_length]
      exact roundFold_cancel H seed (List.range SHUFFLE_ROUND_COUNT) input rfl hn
    · rw [if_neg (by rw [roundFold_length]; exact hle)]
      rw [roundFold_length]
      have := roundFold_cancel H seed (List.range SHUFFLE_ROUND_COUNT).reverse input rfl hn
      rwa [List.reverse_reverse] at this

/-- A small concrete hash function used to instantiate witnesses (the
theorems hold for every hash function). -/
def cH (b : List Nat) : List Nat :=
  (List.range 32).map fun k => (b.foldl (fun a x => (a * 31 + x) % 251) 7 + k) % 256

/-- Witness for C1 at a concrete list, seed and hash function. -/
theorem shuffle_unshuffle_roundtrip_witness :
    (List.replicate 32 171 : List Nat).length = 32 ∧
      (unshuffle_list cH (shuffle_list cH [5, 1, 4] (List.replicate 32 171))
          (List.replicate 32 171) = [5, 1, 4] ∧
        shuffle_list cH (unshuffle_list cH [5, 1, 4] (List.replicate 32 171))
          (List.replicate 32 171) = [5, 1, 4]) :=
  ⟨by decide, shuffle_unshuffle_roundtrip cH [5, 1, 4] (List.replicate 32 171) (by decide)⟩

/-! ### Proof layer: pointwise view of a round (bridge to the single-index walk) -/

theorem applySwaps_getD_not_mem (bit : Nat → Nat) :
    ∀ (ps : List (Nat × Nat)) (l : List Nat) (p : Nat),
      (∀ q ∈ ps, p ≠ q.1 ∧ p ≠ q.2) →
      (applySwaps bit ps l).getD p 0 = l.getD p 0 := by
  intro ps
  induction ps with
  | nil => intro l p _; rfl
  | cons x ps ih =>
    intro l p h
    rw [applySwaps, ih _ p fun q hq => h q (List.mem_cons_of_mem x hq),
      condSwap_getD_other bit x l (h x (List.mem_cons_self x ps)).1
        (h x (List.mem_cons_self x ps)).2]

theorem applySwaps_getD_mem (bit : Nat → Nat) :
    ∀ (ps : List (Nat × Nat)) (l : List Nat) (q : Nat × Nat),
      q ∈ ps → ps.Pairwise PDisj → (∀ x ∈ ps, x.1 < x.2 ∧ x.2 < l.length) →
      (applySwaps bit ps l).getD q.1 0 =
          (if bit q.2 = 1 then l.getD q.2 0 else l.getD q.1 0) ∧
        (applySwaps bit ps l).getD q.2 0 =
          (if bit q.2 = 1 then l.getD q.1 0 else l.getD q.2 0) := by
  intro ps
  induction ps with
  | nil => intro l q hq _ _; exact absurd hq (List.not_mem_nil q)
  | cons x ps ih =>
    intro l q hq hpw hb
    rw [List.pairwise_cons] at hpw
    rw [applySwaps]
    rcases List.mem_cons.mp hq with rfl | hq'
    · rw [applySwaps_getD_not_mem bit ps _ q.1
        (fun y hy => ⟨(hpw.1 y hy).1, (hpw.1 y hy).2.1⟩),
        applySwaps_getD_not_mem bit ps _ q.2
        (fun y hy => ⟨(hpw.1 y hy).2.2.1, (hpw.1 y hy).2.2.2⟩)]
      have hx := hb q (List.mem_cons_self q ps)
      unfold condSwap
      by_cases hbit : bit q.2 = 1
      · simp only [hbit, if_pos rfl, if_true]
        exact ⟨lswap_getD_fst l (by omega) (by omega), lswap_getD_snd l (by omega)⟩
      · simp [hbit]
    · obtain ⟨d1, d2, d3, d4⟩ := hpw.1 q hq'
      have hrec := ih (condSwap bit x l) q hq' hpw.2 ?_
      · rw [hrec.1, hrec.2,
          condSwap_getD_other bit x l (Ne.symm d1) (Ne.symm d3),
          condSwap_getD_other bit x l (Ne.symm d2) (Ne.symm d4)]
        exact ⟨rfl, rfl⟩
      · intro y hy
        rw [length_condSwap]
        exact hb y (List.mem_cons_of_mem x hy)

/-- The per-position permutation applied by one round: the swap-or-not step
of `compute_shuffled_index` with an arbitrary decision-bit function. -/
def roundPermF (bit : Nat → Nat) (pivot n p : Nat) : Nat :=
  if bit (max p ((pivot + n - p) % n)) = 1 then (pivot + n - p) % n else p

theorem roundPermF_lt (bit : Nat → Nat) {pivot n p : Nat} (hp : p < n) :
    roundPermF bit pivot n p < n := by
  unfold roundPermF
  split
  · exact Nat.mod_lt _ (by omega)
  · exact hp

theorem flip_of_le {p pivot n : Nat} (hle : p ≤ pivot) (hpiv : pivot < n) :
    (pivot + n - p) % n = pivot - p := by
  have h : pivot + n - p = n + (pivot - p) := by omega
  rw [h, Nat.add_mod_left, Nat.mod_eq_of_lt (by omega)]

theorem flip_of_gt {p pivot n : Nat} (hgt : pivot < p) (hpn : p < n) :
    (pivot + n - p) % n = pivot + n - p :=
  Nat.mod_eq_of_lt (by omega)

/-- One round of the bulk shuffle, read at position `p`, is the value that
was at position `roundPermF p`. -/
theorem round_getD (bit : Nat → Nat) {pivot n : Nat} (hpiv : pivot < n)
    (l : List Nat) (hlen : l.length = n) {p : Nat} (hp : p < n) :
    (applySwaps bit (roundPairs pivot n) l).getD p 0 =
      l.getD (roundPermF bit pivot n p) 0 := by
  by_cases hle : p ≤ pivot
  · have hf : (pivot + n - p) % n = pivot - p := flip_of_le hle hpiv
    by_cases heq : p = pivot - p
    · have hperm : roundPermF bit pivot n p = p := by
        unfold roundPermF
        rw [hf, ← heq]
        split <;> rfl
      rw [hperm]
      refine applySwaps_getD_not_mem bit _ l p ?_
      rintro ⟨a, b⟩ hq
      rw [roundPairs, List.mem_append] at hq
      rcases hq with hq | hq <;> rw [seg_mem] at hq <;> obtain ⟨k, hk, ha, hb⟩ := hq
      · have := seg1_sep k hk
        constructor <;> simp only [] <;> omega
      · have := seg2_sep k hk
        constructor <;> simp only [] <;> omega
    · have hmem : (min p (pivot - p), max p (pivot - p)) ∈ roundPairs pivot n := by
        rw [roundPairs, List.mem_append]
        left
        rw [seg_mem]
        exact ⟨min p (pivot - p), by omega, by omega, by omega⟩
      have hres := applySwaps_getD_mem bit (roundPairs pivot n) l _ hmem
        roundPairs_pairwise (fun x hx => by
          have := roundPairs_bounds hpiv x hx; omega)
      unfold roundPermF
      rw [hf]
      rcases Nat.lt_or_ge p (pivot - p) with hc | hc
      · have h1 : min p (pivot - p) = p := by omega
        have h2 : max p (pivot - p) = pivot - p := by omega
        have hthis := hres.1
        dsimp only at hthis
        rw [h1, h2] at hthis
        rw [hthis, h2]
        by_cases hb : bit (pivot - p) = 1 <;> simp [hb]
      · have h1 : min p (pivot - p) = pivot - p := by omega
        have h2 : max p (pivot - p) = p := by omega
        have hthis := hres.2
        dsimp only at hthis
        rw [h1, h2] at hthis
        rw [hthis, h2]
        by_cases hb : bit p = 1 <;> simp [hb]
  · have hgt : pivot < p := by omega
    have hf : (pivot + n - p) % n = pivot + n - p := flip_of_gt hgt hp
    have hfgt : pivot < pivot + n - p := by omega
    by_cases heq : p = pivot + n - p
    · have hperm : roundPermF bit pivot n p = p := by
        unfold roundPermF
        rw [hf, ← heq]
        split <;> rfl
      rw [hperm]
      refine applySwaps_getD_not_mem bit _ l p ?_
      rintro ⟨a, b⟩ hq
      rw [roundPairs, List.mem_append] at hq
      rcases hq with hq | hq <;> rw [seg_mem] at hq <;> obtain ⟨k, hk, ha, hb⟩ := hq
      · have := seg1_sep k hk
        constructor <;> simp only [] <;> omega
      · have := seg2_sep k hk
        constructor <;> simp only [] <;> omega
    · have hmem : (min p (pivot + n - p), max p (pivot + n - p)) ∈ roundPairs pivot n := by
        rw [roundPairs, List.mem_append]
        right
        rw [seg_mem]
        refine ⟨min p (pivot + n - p) - (pivot + 1), ?_, by omega, by omega⟩
        omega
      have hres := applySwaps_getD_mem bit (roundPairs pivot n) l _ hmem
        roundPairs_pairwise (fun x hx => by
          have := roundPairs_bounds hpiv x hx; omega)
      unfold roundPermF
      rw [hf]
      rcases Nat.lt_or_ge p (pivot + n - p) with hc | hc
      · have h1 : min p (pivot + n - p) = p := by omega
        have h2 : max p (pivot + n - p) = pivot + n - p := by omega
        have hthis := hres.1
        dsimp only at hthis
        rw [h1, h2] at hthis
        rw [hthis, h2]
        by_cases hb : bit (pivot + n - p) = 1 <;> simp [hb]
      · have h1 : min p (pivot + n - p) = pivot + n - p := by omega
        have h2 : max p (pivot + n - p) = p := by omega
        have hthis := hres.2
        dsimp only at hthis
        rw [h1, h2] at hthis
        rw [hthis, h2]
        by_cases hb : bit p = 1 <;> simp [hb]

/-! ### Proof layer: the single-index walk agrees with the bulk unshuffle -/

theorem intToBytes4_eq {m : Nat} (h : m < 2 ^ 32) :
    intToBytes m 4 = some (toLE4 (m % 2 ^ 32)) := by
  rw [Nat.mod_eq_of_lt h]
  unfold intToBytes toLE4
  rw [if_pos (by norm_num; omega)]
  have h4 : List.range 4 = [0, 1, 2, 3] := rfl
  simp [h4]

/-- Pure composite permutation of `compute_shuffled_index` over a round list. -/
def permFold (H : List Nat → List Nat) (seed : List Nat) (N i : Nat) : Nat :=
  (List.range SHUFFLE_ROUND_COUNT).foldl
    (fun p r => roundPermF (decisionBit H seed r) (shufflePivot H seed r N) N p) i

theorem shuffledIndexRound_ok (H : List Nat → List Nat) (seed : List Nat)
    {N : Nat} (r : Nat) {p : Nat} (hN : N ≤ 2 ^ 40) (hp : p < N) :
    shuffledIndexRound H seed N r p =
      some (roundPermF (decisionBit H seed r) (shufflePivot H seed r N) N p) := by
  simp only [shuffledIndexRound]
  have hflip : (leBytesToNat ((H (seed ++ [r])).take 8) % N + N - p) % N < N :=
    Nat.mod_lt _ (by omega)
  have hpos : max p ((leBytesToNat ((H (seed ++ [r])).take 8) % N + N - p) % N) / 256
      < 2 ^ 32 := by omega
  rw [intToBytes4_eq hpos]
  simp only [Option.bind_eq_bind, Option.some_bind]
  rfl

theorem foldlM_rounds_ok (H : List Nat → List Nat) (seed : List Nat) {N : Nat}
    (hN : N ≤ 2 ^ 40) :
    ∀ (rs : List Nat) (p : Nat), p < N →
      rs.foldlM (fun idx r => shuffledIndexRound H seed N r idx) p =
        some (rs.foldl
          (fun q r => roundPermF (decisionBit H seed r) (shufflePivot H seed r N) N q) p) := by
  intro rs
  induction rs with
  | nil => intro p _; rfl
  | cons r rs ih =>
    intro p hp
    rw [List.foldlM_cons, shuffledIndexRound_ok H seed r hN hp]
    show Option.bind _ _ = _
    rw [Option.some_bind]
    rw [ih _ (roundPermF_lt _ hp), List.foldl_cons]

theorem csi_eq_permFold (H : List Nat → List Nat) (seed : List Nat) {N i : Nat}
    (hN : N ≤ 2 ^ 40) (hi : i < N) :
    compute_shuffled_index H i N seed = some (permFold H seed N i) := by
  unfold compute_shuffled_index permFold
  rw [if_neg (by omega)]
  exact foldlM_rounds_ok H seed hN _ i hi

theorem permStep_lt (H : List Nat → List Nat) (seed : List Nat) {N : Nat} :
    ∀ (rs : List Nat) (p : Nat), p < N →
      rs.foldl (fun q r => roundPermF (decisionBit H seed r) (shufflePivot H seed r N) N q) p
        < N := by
  intro rs
  induction rs with
  | nil => intro p hp; exact hp
  | cons r rs ih =>
    intro p hp
    rw [List.foldl_cons]
    exact ih _ (roundPermF_lt _ hp)

theorem getD_range {k N : Nat} (h : k < N) : (List.range N).getD k 0 = k := by
  simp [List.getD_eq_getElem?_getD, List.getElem?_range h]

/-- Reading position `p` of the bulk unshuffle is reading the original list
at the composite single-index permutation of `p`. -/
theorem unshuffleFold_getD (H : List Nat → List Nat) (seed : List Nat) {N : Nat}
    (hN : 0 < N) :
    ∀ (rs : List Nat) (l : List Nat), l.length = N → ∀ p, p < N →
      (rs.reverse.foldl (fun acc r => shuffleRound H seed N r acc) l).getD p 0 =
        l.getD (rs.foldl
          (fun q r => roundPermF (decisionBit H seed r) (shufflePivot H seed r N) N q) p) 0 := by
  intro rs
  induction rs with
  | nil => intro l _ p _; rfl
  | cons r rs ih =>
    intro l hlen p hp
    rw [List.reverse_cons, List.foldl_append, List.foldl_cons, List.foldl_nil,
      List.foldl_cons]
    have hXlen : (rs.reverse.foldl (fun acc r => shuffleRound H seed N r acc) l).length
        = N := by rw [roundFold_length, hlen]
    have hpiv : shufflePivot H seed r N < N := Nat.mod_lt _ hN
    rw [shuffleRound_eq, round_getD _ hpiv _ hXlen hp,
      ih l hlen _ (roundPermF_lt _ hp)]

/-- Claim C2 (amended): for every hash function, 32-byte seed, length
`N ≤ 2 ^ 40` and `i < N`, the single-index route agrees with the bulk route:
`compute_shuffled_index(i, N, seed)` succeeds and returns exactly entry `i`
of `unshuffle_list` applied to the identity list `[0..N)`.  (The bound
`N ≤ 2 ^ 40` is forced by `int_to_bytes(position // 256, length=4)`, which
raises `OverflowError` for positions of `2 ^ 40` or more, while the bulk
shuffle masks the position window with `& 0xFFFFFFFF`; see the
counterexample.) -/
theorem bulk_single_shuffle_agree (H : List Nat → List Nat) (seed : List Nat)
    (N i : Nat) (_hseed : seed.length = 32) (hN : N ≤ 2 ^ 40) (hi : i < N) :
    compute_shuffled_index H i N seed =
      some ((unshuffle_list H (List.range N) seed).getD i 0) := by
  rw [csi_eq_permFold H seed hN hi]
  by_cases hle : N ≤ 1
  · have hN1 : N = 1 := by omega
    have hi0 : i = 0 := by omega
    subst hN1; subst hi0
    have hperm1 : ∀ (rs : List Nat),
        rs.foldl
          (fun q r => roundPermF (decisionBit H seed r) (shufflePivot H seed r 1) 1 q) 0
          = 0 := by
      intro rs
      induction rs with
      | nil => rfl
      | cons r rs ih =>
        rw [List.foldl_cons]
        have : roundPermF (decisionBit H seed r) (shufflePivot H seed r 1) 1 0 = 0 := by
          unfold roundPermF
          simp [Nat.mod_one]
        rw [this, ih]
    unfold unshuffle_list _inner_shuffle_list
    rw [if_pos (by simp)]
    unfold permFold
    rw [hperm1]
    rfl
  · unfold unshuffle_list _inner_shuffle_list
    rw [if_neg (by simp; omega)]
    simp only [Bool.false_eq_true, if_false, List.length_range]
    rw [unshuffleFold_getD H seed (by omega) (List.range SHUFFLE_ROUND_COUNT)
      (List.range N) (by simp) i hi]
    unfold permFold
    rw [getD_range (permStep_lt H seed _ i hi)]

/-- Witness for C2 (amended) at a concrete hash, seed, `N = 10`, `i = 3`. -/
theorem bulk_single_shuffle_agree_witness :
    (List.replicate 32 171 : List Nat).length = 32 ∧ (10 : Nat) ≤ 2 ^ 40 ∧ 3 < 10 ∧
      compute_shuffled_index cH 3 10 (List.replicate 32 171) =
        some ((unshuffle_list cH (List.range 10) (List.replicate 32 171)).getD 3 0) :=
  ⟨by decide, by decide, by decide,
    bulk_single_shuffle_agree cH (List.replicate 32 171) 10 3 (by decide) (by decide)
      (by decide)⟩

/-- Claim C2 as stated is false for lengths above `2 ^ 40`: at
`N = 2 ^ 41`, `i = N - 1`, `compute_shuffled_index` raises `OverflowError`
(embedded as `none`) in round 0, because `position = max(index, flip) ≥ index
= 2 ^ 41 - 1`, so `position // 256 ≥ 2 ^ 32` does not fit in
`int_to_bytes(..., length=4)`.  This happens for every hash function; it is
shown here for the concrete `cH`. -/
theorem bulk_single_shuffle_agree_counterexample :
    ¬ (compute_shuffled_index cH (2 ^ 41 - 1) (2 ^ 41) (List.replicate 32 0) =
        some ((unshuffle_list cH (List.range (2 ^ 41))
          (List.replicate 32 0)).getD (2 ^ 41 - 1) 0)) := by
  intro h
  rw [show compute_shuffled_index cH (2 ^ 41 - 1) (2 ^ 41) (List.replicate 32 0) = none
    from by decide] at h
  exact Option.noConfusion h

/-! ## Beacon state data model (eth2fastspec.py)

Only the fields read or written by the embedded operations are modelled;
byte strings (roots, domains) are `List Nat`, BLS public keys and signatures
are opaque `Nat` identifiers. -/

def GENESIS_EPOCH : Nat := 0
def FAR_FUTURE_EPOCH : Nat := 2 ^ 64 - 1
def SLOTS_PER_EPOCH : Nat := 32
def MAX_SEED_LOOKAHEAD : Nat := 4
def MIN_VALIDATOR_WITHDRAWABILITY_DELAY : Nat := 256
def EPOCHS_PER_SLASHINGS_VECTOR : Nat := 8192
def MIN_SLASHING_PENALTY_QUOTIENT : Nat := 32
def WHISTLEBLOWER_REWARD_QUOTIENT : Nat := 512
def PROPOSER_REWARD_QUOTIENT : Nat := 8
def MIN_PER_EPOCH_CHURN_LIMIT : Nat := 4
def CHURN_LIMIT_QUOTIENT : Nat := 65536
def SLOTS_PER_HISTORICAL_ROOT : Nat := 8192
def MAX_DEPOSITS : Nat := 16
def MIN_ATTESTATION_INCLUSION_DELAY : Nat := 1
def SHARD_COMMITTEE_PERIOD : Nat := 256
def EFFECTIVE_BALANCE_INCREMENT : Nat := 1000000000
def MAX_EFFECTIVE_BALANCE : Nat := 32000000000
def DEPOSIT_CONTRACT_TREE_DEPTH : Nat := 2 ^ 5

structure Checkpoint where
  epoch : Nat
  root : List Nat
deriving Repr, DecidableEq

structure Validator where
  pubkey : Nat
  withdrawal_credentials : Nat
  effective_balance : Nat
  slashed : Bool
  activation_eligibility_epoch : Nat
  activation_epoch : Nat
  exit_epoch : Nat
  withdrawable_epoch : Nat
deriving Repr, DecidableEq, Inhabited

structure Eth1Data where
  deposit_root : List Nat
  deposit_count : Nat
  block_hash : List Nat
deriving Repr, DecidableEq

structure AttestationData where
  slot : Nat
  index : Nat
  beacon_block_root : List Nat
  source : Checkpoint
  target : Checkpoint
deriving Repr, DecidableEq

structure PendingAttestation where
  aggregation_bits : List Bool
  data : AttestationData
  inclusion_delay : Nat
  proposer_index : Nat
deriving Repr, DecidableEq

/-- The beacon state (fields of the SSZ container not read by the embedded
operations — fork, randao mixes, state roots, historical roots, eth1 votes,
latest block header — are omitted). -/
structure BeaconState where
  slot : Nat
  validators : List Validator
  balances : List Nat
  block_roots : List (List Nat)
  slashings : List Nat
  previous_epoch_attestations : List PendingAttestation
  current_epoch_attestations : List PendingAttestation
  justification_bits : List Bool
  previous_justified_checkpoint : Checkpoint
  current_justified_checkpoint : Checkpoint
  finalized_checkpoint : Checkpoint
  eth1_data : Eth1Data
  eth1_deposit_index : Nat
deriving Repr, DecidableEq

structure BeaconBlockHeader where
  slot : Nat
  proposer_index : Nat
  parent_root : List Nat
  state_root : List Nat
  body_root : List Nat
deriving Repr, DecidableEq

structure SignedBeaconBlockHeader where
  message : BeaconBlockHeader
  signature : Nat
deriving Repr, DecidableEq

structure ProposerSlashing where
  signed_header_1 : SignedBeaconBlockHeader
  signed_header_2 : SignedBeaconBlockHeader
deriving Repr, DecidableEq

structure IndexedAttestation where
  attesting_indices : List Nat
  data : AttestationData
  signature : Nat
deriving Repr, DecidableEq

structure AttesterSlashing where
  attestation_1 : IndexedAttestation
  attestation_2 : IndexedAttestation
deriving Repr, DecidableEq

structure Attestation where
  aggregation_bits : List Bool
  data : AttestationData
  signature : Nat
deriving Repr, DecidableEq

structure DepositData where
  pubkey : Nat
  withdrawal_credentials : Nat
  amount : Nat
  signature : Nat
deriving Repr, DecidableEq

structure Deposit where
  proof : List (List Nat)
  data : DepositData
deriving Repr, DecidableEq

structure DepositMessage where
  pubkey : Nat
  withdrawal_credentials : Nat
  amount : Nat
deriving Repr, DecidableEq

structure VoluntaryExit where
  epoch : Nat
  validator_index : Nat
deriving Repr, DecidableEq

structure SignedVoluntaryExit where
  message : VoluntaryExit
  signature : Nat
deriving Repr, DecidableEq

/-- Block body, restricted to the operation lists consumed by
`process_operations`. -/
structure BeaconBlockBody where
  proposer_slashings : List ProposerSlashing
  attester_slashings : List AttesterSlashing
  attestations : List Attestation
  deposits : List Deposit
  voluntary_exits : List SignedVoluntaryExit
deriving Repr, DecidableEq

/-- A cached shuffling (`ShufflingEpoch`); the constructor is not needed by
the embedded operations, only the stored fields. -/
structure ShufflingEpoch where
  epoch : Nat
  active_indices : List Nat
  shuffling : List Nat
  committees : List (List (List Nat))
deriving Repr, DecidableEq

/-- `EpochsContext` in its loaded form (the three shufflings and proposer
table present).  `pubkey2index` is a Python dict in insertion order with
distinct keys. -/
structure EpochsContext where
  pubkey2index : List (Nat × Nat)
  index2pubkey : List Nat
  proposers : List Nat
  previous_shuffling : ShufflingEpoch
  current_shuffling : ShufflingEpoch
  next_shuffling : ShufflingEpoch
deriving Repr, DecidableEq

/-- External collaborators of eth2fastspec.py that are not part of the
sources under verification, passed as opaque pure functions.
Modelled from the spec: `hash` is `hash_eth2` (SHA-256);
`milagroVerify` / `milagroFastAggregateVerify` are the milagro_bls library
calls, which may raise (`Except.error`); `getDomain` is
`get_domain(state, domain_type, slots_per_epoch, epoch)`;
the `signingRoot*` functions are `compute_signing_root(message, domain)` per
message type; `computeDomainDeposit` is
`compute_domain(DOMAIN_DEPOSIT, GENESIS_FORK_VERSION)`; `htrDepositData` is
the SSZ `hash_tree_root` of a `DepositData`. -/
structure Ext where
  hash : List Nat → List Nat
  milagroVerify : Nat → List Nat → Nat → Except String Bool
  milagroFastAggregateVerify : List Nat → List Nat → Nat → Except String Bool
  getDomain : BeaconState → Nat → Nat → List Nat
  signingRootAttestationData : AttestationData → List Nat → List Nat
  signingRootHeader : BeaconBlockHeader → List Nat → List Nat
  signingRootDepositMessage : DepositMessage → List Nat → List Nat
  signingRootVoluntaryExit : VoluntaryExit → List Nat → List Nat
  computeDomainDeposit : List Nat
  htrDepositData : DepositData → List Nat

/-- `SignatureDomain` markers (the byte constants are irrelevant here; only
the distinction between domain types is observable through `getDomain`). -/
def DOMAIN_BEACON_PROPOSER : Nat := 0
def DOMAIN_BEACON_ATTESTER : Nat := 1
def DOMAIN_RANDAO : Nat := 2
def DOMAIN_DEPOSIT : Nat := 3
def DOMAIN_VOLUNTARY_EXIT : Nat := 4

/-! ## BLS wrappers (eth2fastspec.py lines 112-129) -/

/-- `bls_Verify`: returns the milagro verdict, `False` if the library call
raises (`try/except Exception` with the verdict returned from `finally`). -/
def bls_Verify (ext : Ext) (PK : Nat) (message : List Nat) (signature : Nat) : Bool :=
  match ext.milagroVerify PK message signature with
  | .ok result => result
  | .error _ => false

/-- `bls_FastAggregateVerify`: same exception-to-`False` wrapping around the
aggregate verify. -/
def bls_FastAggregateVerify (ext : Ext) (pubkeys : List Nat) (message : List Nat)
    (signature : Nat) : Bool :=
  match ext.milagroFastAggregateVerify pubkeys message signature with
  | .ok result => result
  | .error _ => false

/-! ## Small helpers (eth2fastspec.py) -/

def compute_epoch_at_slot (slot : Nat) : Nat := slot / SLOTS_PER_EPOCH

def compute_start_slot_at_epoch (epoch : Nat) : Nat := epoch * SLOTS_PER_EPOCH

def compute_activation_exit_epoch (epoch : Nat) : Nat := epoch + 1 + MAX_SEED_LOOKAHEAD

def get_churn_limit (active_validator_count : Nat) : Nat :=
  max MIN_PER_EPOCH_CHURN_LIMIT (active_validator_count / CHURN_LIMIT_QUOTIENT)

def is_active_validator (v : Validator) (epoch : Nat) : Bool :=
  v.activation_epoch ≤ epoch ∧ epoch < v.exit_epoch

def is_slashable_validator (validator : Validator) (epoch : Nat) : Bool :=
  !validator.slashed ∧
    (validator.activation_epoch ≤ epoch ∧ epoch < validator.withdrawable_epoch)

/-- `is_slashable_attestation_data`: double vote or surround vote, exactly as
in the source (the surround check compares only `source` epochs and `target`
epochs across the two attestations). -/
def is_slashable_attestation_data (data_1 data_2 : AttestationData) : Bool :=
  (data_1 ≠ data_2 ∧ data_1.target.epoch = data_2.target.epoch) ∨
    (data_1.source.epoch < data_2.source.epoch ∧
      data_2.target.epoch < data_1.target.epoch)

/-- `get_block_root_at_slot` with its recency assertion. -/
def get_block_root_at_slot (state : BeaconState) (slot : Nat) :
    Except String (List Nat) := do
  unless slot < state.slot ∧ state.slot ≤ slot + SLOTS_PER_HISTORICAL_ROOT do
    throw "AssertionError: block root slot out of range"
  let idx := slot % SLOTS_PER_HISTORICAL_ROOT
  unless idx < state.block_roots.length do throw "IndexError: block_roots"
  return state.block_roots.getD idx []

def get_block_root (state : BeaconState) (epoch : Nat) : Except String (List Nat) :=
  get_block_root_at_slot state (compute_start_slot_at_epoch epoch)

/-- Modelled from the spec: `increase_balance` (eth2.beacon
.epoch_processing_helpers, not under src/) — add `delta` to
`balances[index]`; indexing errors abort the transition. -/
def increase_balance (state : BeaconState) (index delta : Nat) :
    Except String BeaconState := do
  unless index < state.balances.length do throw "IndexError: balances"
  return { state with
    balances := state.balances.set index (state.balances.getD index 0 + delta) }

/-- Modelled from the spec: `decrease_balance` (eth2.beacon
.epoch_processing_helpers, not under src/) — subtract `delta` from
`balances[index]`, saturating at zero. -/
def decrease_balance (state : BeaconState) (index delta : Nat) :
    Except String BeaconState := do
  unless index < state.balances.length do throw "IndexError: balances"
  return { state with
    balances := state.balances.set index (state.balances.getD index 0 - delta) }

/-- Python dict membership. -/
def dictContains (d : List (Nat × Nat)) (k : Nat) : Bool :=
  (d.find? fun kv => kv.1 == k).isSome

/-- Python dict lookup (`d[k]`). -/
def dictGet (d : List (Nat × Nat)) (k : Nat) : Except String Nat :=
  match d.find? fun kv => kv.1 == k with
  | some kv => return kv.2
  | none => throw "KeyError"

/-- Python dict insertion `d[k] = v`: overwrite when the key exists,
append otherwise. -/
def dictInsert (d : List (Nat × Nat)) (k v : Nat) : List (Nat × Nat) :=
  if dictContains d k then d.map fun kv => if kv.1 == k then (k, v) else kv
  else d ++ [(k, v)]

/-- Ascending insertion for `sortedDedup`. -/
def insertAsc (x : Nat) : List Nat → List Nat
  | [] => [x]
  | y :: ys => if x ≤ y then x :: y :: ys else y :: insertAsc x ys

/-- Python `sorted(set(l))`: the distinct elements of `l` in increasing
order. -/
def sortedDedup (l : List Nat) : List Nat :=
  l.dedup.foldr insertAsc []

/-- `EpochsContext.get_beacon_proposer(slot)`: proposer of the current-epoch
slot (asserts the slot is in the current epoch). -/
def get_beacon_proposer (ctx : EpochsContext) (slot : Nat) : Except String Nat := do
  unless compute_epoch_at_slot slot = ctx.current_shuffling.epoch do
    throw "AssertionError: proposer slot not in current epoch"
  unless slot % SLOTS_PER_EPOCH < ctx.proposers.length do
    throw "IndexError: proposers"
  return ctx.proposers.getD (slot % SLOTS_PER_EPOCH) 0

/-- `EpochsContext._get_slot_comms(slot)`. -/
def _get_slot_comms (ctx : EpochsContext) (slot : Nat) :
    Except String (List (List Nat)) := do
  let epoch := compute_epoch_at_slot slot
  let epoch_slot := slot % SLOTS_PER_EPOCH
  let pick (sh : ShufflingEpoch) : Except String (List (List Nat)) := do
    unless epoch_slot < sh.committees.length do throw "IndexError: committees"
    return sh.committees.getD epoch_slot []
  if epoch = ctx.previous_shuffling.epoch then pick ctx.previous_shuffling
  else if epoch = ctx.current_shuffling.epoch then pick ctx.current_shuffling
  else if epoch = ctx.next_shuffling.epoch then pick ctx.next_shuffling
  else throw "Exception: out of range epoch"

/-- `EpochsContext.get_beacon_committee(slot, index)`. -/
def get_beacon_committee (ctx : EpochsContext) (slot index : Nat) :
    Except String (List Nat) := do
  let slot_comms ← _get_slot_comms ctx slot
  if index ≥ slot_comms.length then
    throw "Exception: out of range committee index"
  return slot_comms.getD index []

/-- `EpochsContext.get_committee_count_at_slot(slot)`. -/
def get_committee_count_at_slot (ctx : EpochsContext) (slot : Nat) :
    Except String Nat := do
  let slot_comms ← _get_slot_comms ctx slot
  return slot_comms.length

/-- `EpochsContext.sync_pubkeys(state)`: extend both pubkey tables for
validator indices at or beyond the current table size. -/
def sync_pubkeys (ctx : EpochsContext) (state : BeaconState) :
    Except String EpochsContext := do
  let current_count := ctx.pubkey2index.length
  unless current_count = ctx.index2pubkey.length do
    throw "AssertionError: pubkey table size mismatch"
  let mut p2i := ctx.pubkey2index
  let mut i2p := ctx.index2pubkey
  for i in [current_count:state.validators.length] do
    let pubkey := (state.validators.getD i default).pubkey
    p2i := dictInsert p2i pubkey i
    i2p := i2p ++ [pubkey]
  return { ctx with pubkey2index := p2i, index2pubkey := i2p }

/-! ## Epoch process scratch data (eth2fastspec.py lines 560-663) -/

structure FlatValidator where
  effective_balance : Nat
  slashed : Bool
  activation_eligibility_epoch : Nat
  activation_epoch : Nat
  exit_epoch : Nat
  withdrawable_epoch : Nat
deriving Repr, DecidableEq

structure AttesterStatus where
  flags : Nat
  proposer_index : Int
  inclusion_delay : Nat
  validator : FlatValidator
  active : Bool
deriving Repr, DecidableEq

structure EpochStakeSummary where
  source_stake : Nat
  target_stake : Nat
  head_stake : Nat
deriving Repr, DecidableEq

structure EpochProcess where
  prev_epoch : Nat
  current_epoch : Nat
  statuses : List AttesterStatus
  total_active_stake : Nat
  prev_epoch_unslashed_stake : EpochStakeSummary
  curr_epoch_unslashed_target_stake : Nat
  active_validators : Nat
  indices_to_slash : List Nat
  indices_to_set_activation_eligibility : List Nat
  indices_to_maybe_activate : List Nat
  indices_to_eject : List Nat
  exit_queue_end : Nat
  exit_queue_end_churn : Nat
  churn_limit : Nat
deriving Repr, DecidableEq

/-! ## Justification and finalization (eth2fastspec.py lines 941-997) -/

/-- The four finalization updates at the end of
`process_justification_and_finalization` (lines 983-995): each checks a
window of the shifted justification bits and an epoch-distance condition on
the saved pre-shift checkpoints. -/
def apply_finalization (old_previous_justified_checkpoint
    old_current_justified_checkpoint : Checkpoint) (current_epoch : Nat)
    (bits : List Bool) (state : BeaconState) : BeaconState :=
  let state5 :=
    if ((bits.drop 1).take 3).all id ∧
        old_previous_justified_checkpoint.epoch + 3 = current_epoch then
      { state with finalized_checkpoint := old_previous_justified_checkpoint }
    else state
  let state6 :=
    if ((bits.drop 1).take 2).all id ∧
        old_previous_justified_checkpoint.epoch + 2 = current_epoch then
      { state5 with finalized_checkpoint := old_previous_justified_checkpoint }
    else state5
  let state7 :=
    if (bits.take 3).all id ∧
        old_current_justified_checkpoint.epoch + 2 = current_epoch then
      { state6 with finalized_checkpoint := old_current_justified_checkpoint }
    else state6
  if (bits.take 2).all id ∧
      old_current_justified_checkpoint.epoch + 1 = current_epoch then
    { state7 with finalized_checkpoint := old_current_justified_checkpoint }
  else state7

/-- `process_justification_and_finalization(epochs_ctx, process, state)`
(the `epochs_ctx` argument is unused by the source body and omitted).
The justification-bits shift `bits[1:] = bits[:-1]; bits[0] = False` becomes
`false :: bits.dropLast`. -/
def process_justification_and_finalization (process : EpochProcess)
    (state : BeaconState) : Except String BeaconState := do
  let previous_epoch := process.prev_epoch
  let current_epoch := process.current_epoch
  if current_epoch ≤ GENESIS_EPOCH + 1 then
    return state
  else
    let old_previous_justified_checkpoint := state.previous_justified_checkpoint
    let old_current_justified_checkpoint := state.current_justified_checkpoint
    let state1 :=
      { state with previous_justified_checkpoint := state.current_justified_checkpoint }
    let bits0 := false :: state1.justification_bits.dropLast
    let (state2, bits1) ←
      if process.prev_epoch_unslashed_stake.target_stake * 3 ≥
          process.total_active_stake * 2 then do
        let root ← get_block_root state1 previous_epoch
        pure ({ state1 with
          current_justified_checkpoint := ⟨previous_epoch, root⟩ }, bits0.set 1 true)
      else pure (state1, bits0)
    let (state3, bits2) ←
      if process.curr_epoch_unslashed_target_stake * 3 ≥
          process.total_active_stake * 2 then do
        let root ← get_block_root state2 current_epoch
        pure ({ state2 with
          current_justified_checkpoint := ⟨current_epoch, root⟩ }, bits1.set 0 true)
      else pure (state2, bits1)
    let state4 := { state3 with justification_bits := bits2 }
    unless bits2.length = 4 do throw "AssertionError: justification bits length"
    return apply_finalization old_previous_justified_checkpoint
      old_current_justified_checkpoint current_epoch bits2 state4

/-! ## Exit and slashing (eth2fastspec.py lines 1432-1564) -/

/-- `initiate_validator_exit(epochs_ctx, state, index)`. -/
def initiate_validator_exit (ctx : EpochsContext) (state : BeaconState)
    (index : Nat) : Except String BeaconState := do
  unless index < state.validators.length do throw "IndexError: validators"
  let new_validator := state.validators.getD index default
  if new_validator.exit_epoch ≠ FAR_FUTURE_EPOCH then
    return state
  else
    let current_epoch := ctx.current_shuffling.epoch
    let exit_epochs := (state.validators.filter
      fun v => v.exit_epoch != FAR_FUTURE_EPOCH).map Validator.exit_epoch
    let exit_queue_epoch :=
      (exit_epochs ++ [compute_activation_exit_epoch current_epoch]).foldl max 0
    let exit_queue_churn := (state.validators.filter
      fun v => v.exit_epoch == exit_queue_epoch).length
    let exit_queue_epoch :=
      if exit_queue_churn ≥ get_churn_limit ctx.current_shuffling.active_indices.length
      then exit_queue_epoch + 1 else exit_queue_epoch
    let v1 := { new_validator with exit_epoch := exit_queue_epoch }
    let v2 := { v1 with
      withdrawable_epoch := v1.exit_epoch + MIN_VALIDATOR_WITHDRAWABILITY_DELAY }
    return { state with validators := state.validators.set index v2 }

/-- `slash_validator(epochs_ctx, state, slashed_index, whistleblower_index)`. -/
def slash_validator (ctx : EpochsContext) (state : BeaconState)
    (slashed_index : Nat) (whistleblower_index : Option Nat) :
    Except String BeaconState := do
  let epoch := ctx.current_shuffling.epoch
  let state ← initiate_validator_exit ctx state slashed_index
  let new_validator := state.validators.getD slashed_index default
  let v1 := { new_validator with slashed := true }
  let v2 := { v1 with
    withdrawable_epoch := max v1.withdrawable_epoch (epoch + EPOCHS_PER_SLASHINGS_VECTOR) }
  let sidx := epoch % EPOCHS_PER_SLASHINGS_VECTOR
  unless sidx < state.slashings.length do throw "IndexError: slashings"
  let state := { state with
    slashings := state.slashings.set sidx (state.slashings.getD sidx 0 + v2.effective_balance) }
  let state := { state with validators := state.validators.set slashed_index v2 }
  let state ← decrease_balance state slashed_index
    (v2.effective_balance / MIN_SLASHING_PENALTY_QUOTIENT)
  let proposer_index ← get_beacon_proposer ctx state.slot
  let whistleblower := whistleblower_index.getD proposer_index
  let whistleblower_reward := v2.effective_balance / WHISTLEBLOWER_REWARD_QUOTIENT
  let proposer_reward := whistleblower_reward / PROPOSER_REWARD_QUOTIENT
  let state ← increase_balance state proposer_index proposer_reward
  increase_balance state whistleblower (whistleblower_reward - proposer_reward)

/-- `is_valid_indexed_attestation`: sorted unique non-empty indices plus the
aggregate signature verdict (`indices == sorted(set(indices))` holds exactly
of strictly increasing lists, i.e. `indices = sortedDedup indices`).
Pubkey lookups may raise `IndexError`. -/
def is_valid_indexed_attestation (ext : Ext) (ctx : EpochsContext)
    (state : BeaconState) (indexed_attestation : IndexedAttestation) :
    Except String Bool := do
  let indices := indexed_attestation.attesting_indices
  if indices.length = 0 ∨ indices ≠ sortedDedup indices then
    return false
  else
    let pubkeys ← indices.mapM fun i => do
      unless i < ctx.index2pubkey.length do throw "IndexError: index2pubkey"
      return ctx.index2pubkey.getD i 0
    let domain := ext.getDomain state DOMAIN_BEACON_ATTESTER
      indexed_attestation.data.target.epoch
    let signing_root := ext.signingRootAttestationData indexed_attestation.data domain
    return bls_FastAggregateVerify ext pubkeys signing_root
      indexed_attestation.signature

/-- `process_attester_slashing`.  Note the source binds
`validators = state.validators` once, before the slashing loop, and checks
slashability against that list. -/
def process_attester_slashing (ext : Ext) (ctx : EpochsContext)
    (state : BeaconState) (attester_slashing : AttesterSlashing) :
    Except String (BeaconState × EpochsContext) := do
  let attestation_1 := attester_slashing.attestation_1
  let attestation_2 := attester_slashing.attestation_2
  unless is_slashable_attestation_data attestation_1.data attestation_2.data do
    throw "AssertionError: attestation pair not slashable"
  unless (← is_valid_indexed_attestation ext ctx state attestation_1) do
    throw "AssertionError: attestation 1 invalid"
  unless (← is_valid_indexed_attestation ext ctx state attestation_2) do
    throw "AssertionError: attestation 2 invalid"
  let indices := (sortedDedup attestation_1.attesting_indices).filter
    fun i => attestation_2.attesting_indices.contains i
  let validators := state.validators
  let mut slashed_any := false
  let mut st := state
  for index in indices do
    unless index < validators.length do throw "IndexError: validators"
    if is_slashable_validator (validators.getD index default)
        ctx.current_shuffling.epoch then
      st ← slash_validator ctx st index none
      slashed_any := true
  unless slashed_any do throw "AssertionError: no validator slashed"
  return (st, ctx)

/-- `process_proposer_slashing`. -/
def process_proposer_slashing (ext : Ext) (ctx : EpochsContext)
    (state : BeaconState) (proposer_slashing : ProposerSlashing) :
    Except String (BeaconState × EpochsContext) := do
  let header_1 := proposer_slashing.signed_header_1.message
  let header_2 := proposer_slashing.signed_header_2.message
  unless header_1.slot = header_2.slot do throw "AssertionError: slots differ"
  unless header_1.proposer_index = header_2.proposer_index do
    throw "AssertionError: proposer indices differ"
  unless header_1 ≠ header_2 do throw "AssertionError: identical headers"
  unless header_1.proposer_index < state.validators.length do
    throw "IndexError: validators"
  let proposer := state.validators.getD header_1.proposer_index default
  unless is_slashable_validator proposer ctx.current_shuffling.epoch do
    throw "AssertionError: proposer not slashable"
  for signed_header in [proposer_slashing.signed_header_1,
      proposer_slashing.signed_header_2] do
    let domain := ext.getDomain state DOMAIN_BEACON_PROPOSER
      (compute_epoch_at_slot signed_header.message.slot)
    let signing_root := ext.signingRootHeader signed_header.message domain
    unless bls_Verify ext proposer.pubkey signing_root signed_header.signature do
      throw "AssertionError: bad header signature"
  let st ← slash_validator ctx state header_1.proposer_index none
  return (st, ctx)

/-- `process_attestation`. -/
def process_attestation (ext : Ext) (ctx : EpochsContext) (state : BeaconState)
    (attestation : Attestation) : Except String (BeaconState × EpochsContext) := do
  let slot := state.slot
  let data := attestation.data
  unless data.index < (← get_committee_count_at_slot ctx data.slot) do
    throw "AssertionError: committee index out of range"
  unless data.target.epoch = ctx.previous_shuffling.epoch ∨
      data.target.epoch = ctx.current_shuffling.epoch do
    throw "AssertionError: target epoch out of range"
  unless data.target.epoch = compute_epoch_at_slot data.slot do
    throw "AssertionError: target epoch does not match slot"
  unless data.slot + MIN_ATTESTATION_INCLUSION_DELAY ≤ slot ∧
      slot ≤ data.slot + SLOTS_PER_EPOCH do
    throw "AssertionError: inclusion window"
  let committee ← get_beacon_committee ctx data.slot data.index
  unless attestation.aggregation_bits.length = committee.length do
    throw "AssertionError: aggregation bits length"
  let proposer ← get_beacon_proposer ctx slot
  let pending_attestation : PendingAttestation :=
    ⟨attestation.aggregation_bits, data, slot - data.slot, proposer⟩
  let state ←
    if data.target.epoch = ctx.current_shuffling.epoch then do
      unless data.source = state.current_justified_checkpoint do
        throw "AssertionError: bad source checkpoint"
      pure { state with current_epoch_attestations :=
        state.current_epoch_attestations ++ [pending_attestation] }
    else do
      unless data.source = state.previous_justified_checkpoint do
        throw "AssertionError: bad source checkpoint"
      pure { state with previous_epoch_attestations :=
        state.previous_epoch_attestations ++ [pending_attestation] }
  let bits := attestation.aggregation_bits
  let committee2 ← get_beacon_committee ctx data.slot data.index
  let attesting_indices := sortedDedup
    ((committee2.enum.filter fun p => bits.getD p.1 false).map Prod.snd)
  let indexed : IndexedAttestation := ⟨attesting_indices, attestation.data,
    attestation.signature⟩
  unless (← is_valid_indexed_attestation ext ctx state indexed) do
    throw "AssertionError: invalid indexed attestation"
  return (state, ctx)

/-- `is_valid_merkle_branch` (eth2fastspec.py lines 1650-1662). -/
def is_valid_merkle_branch (H : List Nat → List Nat) (leaf : List Nat)
    (branch : List (List Nat)) (depth index : Nat) (root : List Nat) :
    Except String Bool := do
  let mut value := leaf
  for i in [0:depth] do
    unless i < branch.length do throw "IndexError: branch"
    if (index >>> i) % 2 = 1 then
      value := H (branch.getD i [] ++ value)
    else
      value := H (value ++ branch.getD i [])
  return value == root

/-- `process_deposit`. -/
def process_deposit (ext : Ext) (ctx : EpochsContext) (state : BeaconState)
    (deposit : Deposit) : Except String (BeaconState × EpochsContext) := do
  let ok ← is_valid_merkle_branch ext.hash (ext.htrDepositData deposit.data)
    deposit.proof (DEPOSIT_CONTRACT_TREE_DEPTH + 1) state.eth1_deposit_index
    state.eth1_data.deposit_root
  unless ok do throw "AssertionError: bad merkle branch"
  let state := { state with eth1_deposit_index := state.eth1_deposit_index + 1 }
  let pubkey := deposit.data.pubkey
  let amount := deposit.data.amount
  if ¬ dictContains ctx.pubkey2index pubkey then
    let deposit_message : DepositMessage :=
      ⟨deposit.data.pubkey, deposit.data.withdrawal_credentials, deposit.data.amount⟩
    let domain := ext.computeDomainDeposit
    let signing_root := ext.signingRootDepositMessage deposit_message domain
    if ¬ bls_Verify ext pubkey signing_root deposit.data.signature then
      return (state, ctx)
    else
      let new_validator : Validator :=
        { pubkey := pubkey,
          withdrawal_credentials := deposit.data.withdrawal_credentials,
          effective_balance :=
            min (amount - amount % EFFECTIVE_BALANCE_INCREMENT) MAX_EFFECTIVE_BALANCE,
          slashed := false,
          activation_eligibility_epoch := FAR_FUTURE_EPOCH,
          activation_epoch := FAR_FUTURE_EPOCH,
          exit_epoch := FAR_FUTURE_EPOCH,
          withdrawable_epoch := FAR_FUTURE_EPOCH }
      let state := { state with
        validators := state.validators ++ [new_validator],
        balances := state.balances ++ [amount] }
      let ctx ← sync_pubkeys ctx state
      return (state, ctx)
  else
    let index ← dictGet ctx.pubkey2index pubkey
    let state ← increase_balance state index amount
    let ctx ← sync_pubkeys ctx state
    return (state, ctx)

/-- `process_voluntary_exit`. -/
def process_voluntary_exit (ext : Ext) (ctx : EpochsContext) (state : BeaconState)
    (signed_voluntary_exit : SignedVoluntaryExit) :
    Except String (BeaconState × EpochsContext) := do
  let voluntary_exit := signed_voluntary_exit.message
  unless voluntary_exit.validator_index < state.validators.length do
    throw "IndexError: validators"
  let validator := state.validators.getD voluntary_exit.validator_index default
  let current_epoch := ctx.current_shuffling.epoch
  unless is_active_validator validator current_epoch do
    throw "AssertionError: validator not active"
  unless validator.exit_epoch = FAR_FUTURE_EPOCH do
    throw "AssertionError: exit already initiated"
  unless current_epoch ≥ voluntary_exit.epoch do
    throw "AssertionError: exit epoch in the future"
  unless current_epoch ≥ validator.activation_epoch + SHARD_COMMITTEE_PERIOD do
    throw "AssertionError: validator too young"
  let domain := ext.getDomain state DOMAIN_VOLUNTARY_EXIT voluntary_exit.epoch
  let signing_root := ext.signingRootVoluntaryExit voluntary_exit domain
  unless bls_Verify ext validator.pubkey signing_root
      signed_voluntary_exit.signature do
    throw "AssertionError: bad exit signature"
  let st ← initiate_validator_exit ctx state voluntary_exit.validator_index
  return (st, ctx)

/-- The `for operation in operations: state = function(...)` loop of
`process_operations`, for one operation class. -/
def applyOps {Op : Type}
    (f : EpochsContext → BeaconState → Op → Except String (BeaconState × EpochsContext))
    (sc : BeaconState × EpochsContext) (ops : List Op) :
    Except String (BeaconState × EpochsContext) :=
  ops.foldlM (fun sc op => f sc.2 sc.1 op) sc

/-- `process_operations` (eth2fastspec.py lines 1385-1403): the deposit-count
gate, then the five operation classes in their fixed order. -/
def process_operations (ext : Ext) (ctx : EpochsContext) (state : BeaconState)
    (body : BeaconBlockBody) : Except String (BeaconState × EpochsContext) := do
  unless (body.deposits.length : Int) =
      min (MAX_DEPOSITS : Int)
        ((state.eth1_data.deposit_count : Int) - (state.eth1_deposit_index : Int)) do
    throw "AssertionError: deposits count mismatch"
  let sc1 ← applyOps (process_proposer_slashing ext) (state, ctx) body.proposer_slashings
  let sc2 ← applyOps (process_attester_slashing ext) sc1 body.attester_slashings
  let sc3 ← applyOps (process_attestation ext) sc2 body.attestations
  let sc4 ← applyOps (process_deposit ext) sc3 body.deposits
  applyOps (process_voluntary_exit ext) sc4 body.voluntary_exits

/-! ## Concrete fixtures for witnesses and counterexamples -/

/-- A concrete external-collaborator bundle whose BLS calls succeed. -/
def cExt : Ext where
  hash := fun _ => List.replicate 32 0
  milagroVerify := fun _ _ _ => .ok true
  milagroFastAggregateVerify := fun _ _ _ => .ok true
  getDomain := fun _ _ _ => []
  signingRootAttestationData := fun _ _ => []
  signingRootHeader := fun _ _ => []
  signingRootDepositMessage := fun _ _ => []
  signingRootVoluntaryExit := fun _ _ => []
  computeDomainDeposit := []
  htrDepositData := fun _ => []

/-- One active, unslashed validator with maximum effective balance. -/
def cV0 : Validator :=
  ⟨7, 0, 32000000000, false, 0, 0, FAR_FUTURE_EPOCH, FAR_FUTURE_EPOCH⟩

def cSh0 : ShufflingEpoch := ⟨0, [0], [0], [[[0]]]⟩

/-- Context at epoch 0 with validator 0 as proposer of every slot. -/
def cCtx0 : EpochsContext := ⟨[(7, 0)], [7], [0], cSh0, cSh0, cSh0⟩

/-- A minimal one-validator state at slot 0. -/
def cSt0 : BeaconState where
  slot := 0
  validators := [cV0]
  balances := [32000000000]
  block_roots := [[]]
  slashings := [0]
  previous_epoch_attestations := []
  current_epoch_attestations := []
  justification_bits := [false, false, false, false]
  previous_justified_checkpoint := ⟨0, []⟩
  current_justified_checkpoint := ⟨0, []⟩
  finalized_checkpoint := ⟨0, []⟩
  eth1_data := ⟨[], 0, []⟩
  eth1_deposit_index := 0

/-! ## Claim C7: the BLS wrappers never propagate exceptions -/

/-- Claim C7: `bls_Verify` and `bls_FastAggregateVerify` always return a
boolean: when the underlying milagro call raises, they return `false`; when
it returns a verdict, they return that verdict.  (In the Python, the
`try/except Exception` with the verdict returned from `finally` produces
exactly this behaviour for any raising library call.) -/
theorem bls_wrappers_never_raise (ext : Ext) (pk : Nat) (msg : List Nat)
    (sig : Nat) (pks : List Nat) :
    (∀ e, ext.milagroVerify pk msg sig = .error e →
      bls_Verify ext pk msg sig = false) ∧
    (∀ b, ext.milagroVerify pk msg sig = .ok b →
      bls_Verify ext pk msg sig = b) ∧
    (∀ e, ext.milagroFastAggregateVerify pks msg sig = .error e →
      bls_FastAggregateVerify ext pks msg sig = false) ∧
    (∀ b, ext.milagroFastAggregateVerify pks msg sig = .ok b →
      bls_FastAggregateVerify ext pks msg sig = b) := by
  refine ⟨fun e he => ?_, fun b hb => ?_, fun e he => ?_, fun b hb => ?_⟩
  · simp [bls_Verify, he]
  · simp [bls_Verify, hb]
  · simp [bls_FastAggregateVerify, he]
  · simp [bls_FastAggregateVerify, hb]

/-- An external bundle whose milagro calls raise. -/
def cExtRaising : Ext :=
  { cExt with
    milagroVerify := fun _ _ _ => .error "ValueError"
    milagroFastAggregateVerify := fun _ _ _ => .error "ValueError" }

/-- Witness for C7: on a concrete raising library call, both wrappers
return `false`. -/
theorem bls_wrappers_never_raise_witness :
    bls_Verify cExtRaising 1 [2] 3 = false ∧
      bls_FastAggregateVerify cExtRaising [1] [2] 3 = false :=
  ⟨(bls_wrappers_never_raise cExtRaising 1 [2] 3 [1]).1 "ValueError" rfl,
    (bls_wrappers_never_raise cExtRaising 1 [2] 3 [1]).2.2.1 "ValueError" rfl⟩

/-! ## Claim C10: `initiate_validator_exit` -/

theorem foldl_max_init_le : ∀ (l : List Nat) (a : Nat), a ≤ l.foldl max a := by
  intro l
  induction l with
  | nil => intro a; exact Nat.le_refl a
  | cons x l ih =>
    intro a
    exact le_trans (Nat.le_max_left a x) (ih (max a x))

/-- Inversion for `Except` bind. -/
theorem except_bind_ok {α β : Type} (x : Except String α) (f : α → Except String β)
    (b : β) : x >>= f = .ok b ↔ ∃ a, x = .ok a ∧ f a = .ok b := by
  cases x with
  | error e => simp [Bind.bind, Except.bind]
  | ok a => simp [Bind.bind, Except.bind]

/-- Inversion for a passed `unless` guard followed by `pure`. -/
theorem unless_pure_ok {α : Type} {a b : α} :
    ((do pure PUnit.unit; pure a) : Except String α) = .ok b ↔ a = b :=
  ⟨fun h => Except.ok.inj h, fun h => by rw [h]; rfl⟩

/-- Claim C10: `initiate_validator_exit` is idempotent — a validator whose
exit epoch is already set is returned unchanged — and when it does initiate
an exit, the exit epoch is at least `current + 1 + MAX_SEED_LOOKAHEAD`, the
withdrawable epoch is exactly `exit_epoch +
MIN_VALIDATOR_WITHDRAWABILITY_DELAY`, so `exit_epoch ≤ withdrawable_epoch`
holds afterwards. -/
theorem initiate_validator_exit_spec (ctx : EpochsContext) (state : BeaconState)
    (index : Nat) (hidx : index < state.validators.length) :
    ((state.validators.getD index default).exit_epoch ≠ FAR_FUTURE_EPOCH →
      initiate_validator_exit ctx state index = .ok state) ∧
    (∀ post, (state.validators.getD index default).exit_epoch = FAR_FUTURE_EPOCH →
      initiate_validator_exit ctx state index = .ok post →
      compute_activation_exit_epoch ctx.current_shuffling.epoch ≤
          (post.validators.getD index default).exit_epoch ∧
        (post.validators.getD index default).withdrawable_epoch =
          (post.validators.getD index default).exit_epoch +
            MIN_VALIDATOR_WITHDRAWABILITY_DELAY ∧
        (post.validators.getD index default).exit_epoch ≤
          (post.validators.getD index default).withdrawable_epoch) := by
  constructor
  · intro hset
    unfold initiate_validator_exit
    simp only [hidx, if_true]
    rw [if_pos hset]
    rfl
  · intro post hunset hrun
    unfold initiate_validator_exit at hrun
    simp only [hidx, if_true] at hrun
    rw [if_neg (fun hcon => hcon hunset)] at hrun
    have hpost := unless_pure_ok.mp hrun
    rw [← hpost]
    dsimp only
    rw [getD_set_self _ _ _ _ hidx]
    dsimp only
    have hcae : compute_activation_exit_epoch ctx.current_shuffling.epoch ≤
        (((state.validators.filter
            fun v => v.exit_epoch != FAR_FUTURE_EPOCH).map Validator.exit_epoch) ++
          [compute_activation_exit_epoch ctx.current_shuffling.epoch]).foldl max 0 := by
      rw [List.foldl_append]
      exact Nat.le_max_right _ _
    refine ⟨?_, rfl, by omega⟩
    split
    · omega
    · exact hcae

/-- Concrete run of `initiate_validator_exit` for the C10 witness. -/
def cExitOut : BeaconState :=
  match initiate_validator_exit cCtx0 cSt0 0 with
  | .ok s => s
  | .error _ => cSt0

/-- Witness for C10 on a concrete one-validator state. -/
theorem initiate_validator_exit_spec_witness :
    0 < cSt0.validators.length ∧
      (cSt0.validators.getD 0 default).exit_epoch = FAR_FUTURE_EPOCH ∧
      initiate_validator_exit cCtx0 cSt0 0 = .ok cExitOut ∧
      (compute_activation_exit_epoch cCtx0.current_shuffling.epoch ≤
          (cExitOut.validators.getD 0 default).exit_epoch ∧
        (cExitOut.validators.getD 0 default).withdrawable_epoch =
          (cExitOut.validators.getD 0 default).exit_epoch +
            MIN_VALIDATOR_WITHDRAWABILITY_DELAY ∧
        (cExitOut.validators.getD 0 default).exit_epoch ≤
          (cExitOut.validators.getD 0 default).withdrawable_epoch) :=
  ⟨by decide, by decide, by rfl,
    (initiate_validator_exit_spec cCtx0 cSt0 0 (by decide)).2 cExitOut (by decide)
      (by rfl)⟩

/-! ## Claim C5: `slash_validator` -/

theorem increase_balance_ok {s : BeaconState} {i δ : Nat} {t : BeaconState} :
    increase_balance s i δ = .ok t ↔
      i < s.balances.length ∧
        t = { s with balances := s.balances.set i (s.balances.getD i 0 + δ) } := by
  unfold increase_balance
  by_cases h : i < s.balances.length
  · simp only [h, if_true, true_and]
    exact ⟨fun hh => (Except.ok.inj hh).symm, fun hh => by rw [hh]; rfl⟩
  · simp only [h, if_false, false_and, iff_false]
    intro hh
    exact Except.noConfusion (show Except.error _ = Except.ok t from hh)

theorem decrease_balance_ok {s : BeaconState} {i δ : Nat} {t : BeaconState} :
    decrease_balance s i δ = .ok t ↔
      i < s.balances.length ∧
        t = { s with balances := s.balances.set i (s.balances.getD i 0 - δ) } := by
  unfold decrease_balance
  by_cases h : i < s.balances.length
  · simp only [h, if_true, true_and]
    exact ⟨fun hh => (Except.ok.inj hh).symm, fun hh => by rw [hh]; rfl⟩
  · simp only [h, if_false, false_and, iff_false]
    intro hh
    exact Except.noConfusion (show Except.error _ = Except.ok t from hh)

/-- `initiate_validator_exit` touches only the exit/withdrawable epochs of
the one validator: balances, slashings, slot, list length and the
effective balance at `index` are preserved. -/
theorem initiate_validator_exit_effects {ctx : EpochsContext} {state : BeaconState}
    {index : Nat} {post : BeaconState}
    (hrun : initiate_validator_exit ctx state index = .ok post) :
    post.slot = state.slot ∧ post.balances = state.balances ∧
      post.slashings = state.slashings ∧
      post.validators.length = state.validators.length ∧
      (post.validators.getD index default).effective_balance =
        (state.validators.getD index default).effective_balance ∧
      index < state.validators.length := by
  unfold initiate_validator_exit at hrun
  by_cases hidx : index < state.validators.length
  · simp only [hidx, if_true] at hrun
    by_cases hset : (state.validators.getD index default).exit_epoch ≠ FAR_FUTURE_EPOCH
    · rw [if_pos hset] at hrun
      have := unless_pure_ok.mp hrun
      subst this
      exact ⟨rfl, rfl, rfl, rfl, rfl, hidx⟩
    · rw [if_neg hset] at hrun
      have hpost := unless_pure_ok.mp hrun
      rw [← hpost]
      refine ⟨rfl, rfl, rfl, by simp, ?_, hidx⟩
      dsimp only
      rw [getD_set_self _ _ _ _ hidx]
  · rw [if_neg hidx] at hrun
    exact Except.noConfusion
      (show Except.error _ = Except.ok post from hrun)

/-- Claim C5 (amended): after `slash_validator` on validator `v` at current
epoch `e`: `v` is slashed; `v`'s withdrawable epoch is at least
`e + EPOCHS_PER_SLASHINGS_VECTOR`; the slashings ring entry at
`e % EPOCHS_PER_SLASHINGS_VECTOR` grows by `v`'s effective balance; and —
provided `v` is not the block proposer of the current slot (who, with no
explicit whistleblower, also receives the whistleblower reward) — `v`'s
balance decreases by `effective_balance / MIN_SLASHING_PENALTY_QUOTIENT`,
saturating at zero. -/
theorem slash_validator_spec (ctx : EpochsContext) (state : BeaconState)
    (v p : Nat) (post : BeaconState)
    (hbal : v < state.balances.length)
    (hprop : get_beacon_proposer ctx state.slot = .ok p)
    (hrun : slash_validator ctx state v none = .ok post) :
    (post.validators.getD v default).slashed = true ∧
      (post.validators.getD v default).withdrawable_epoch ≥
        ctx.current_shuffling.epoch + EPOCHS_PER_SLASHINGS_VECTOR ∧
      post.slashings.getD (ctx.current_shuffling.epoch % EPOCHS_PER_SLASHINGS_VECTOR) 0 =
        state.slashings.getD (ctx.current_shuffling.epoch % EPOCHS_PER_SLASHINGS_VECTOR) 0 +
          (state.validators.getD v default).effective_balance ∧
      (p ≠ v → post.balances.getD v 0 =
        state.balances.getD v 0 -
          (state.validators.getD v default).effective_balance /
            MIN_SLASHING_PENALTY_QUOTIENT) := by
  unfold slash_validator at hrun
  rw [except_bind_ok] at hrun
  obtain ⟨s1, hs1, hrun⟩ := hrun
  obtain ⟨hslot1, hbal1, hsl1, hlen1, heff1, hv⟩ := initiate_validator_exit_effects hs1
  try dsimp only at hrun
  by_cases hsidx : ctx.current_shuffling.epoch % EPOCHS_PER_SLASHINGS_VECTOR <
      s1.slashings.length
  · rw [if_pos hsidx] at hrun
    rw [except_bind_ok] at hrun
    obtain ⟨u, hu, hrun⟩ := hrun
    clear hu
    try dsimp only at hrun
    rw [except_bind_ok] at hrun
    obtain ⟨s2, hs2, hrun⟩ := hrun
    rw [decrease_balance_ok] at hs2
    obtain ⟨hblen2, hs2eq⟩ := hs2
    try dsimp only at hrun
    rw [except_bind_ok] at hrun
    obtain ⟨p2, hp2, hrun⟩ := hrun
    have hslot2 : s2.slot = state.slot := by rw [hs2eq]; exact hslot1
    rw [hslot2, hprop] at hp2
    have hp2p : p2 = p := (Except.ok.inj hp2).symm
    rw [hp2p] at hrun
    try dsimp only at hrun
    rw [except_bind_ok] at hrun
    obtain ⟨s3, hs3, hrun⟩ := hrun
    rw [increase_balance_ok] at hs3
    obtain ⟨hblen3, hs3eq⟩ := hs3
    try dsimp only at hrun
    rw [increase_balance_ok] at hrun
    obtain ⟨hblen4, hposteq⟩ := hrun
    subst hposteq
    subst hs3eq
    subst hs2eq
    dsimp only
    simp only [Option.getD_none]
    have hvlen : v < s1.validators.length := by omega
    rw [getD_set_self _ _ _ _ hvlen]
    refine ⟨rfl, by dsimp only; omega, ?_, ?_⟩
    · rw [getD_set_self _ _ _ _ hsidx, heff1, hsl1]
    · intro hpv
      rw [getD_set_ne _ _ _ p v hpv, getD_set_ne _ _ _ p v hpv]
      have hvb : v < s1.balances.length := by rw [hbal1]; exact hbal
      rw [getD_set_self _ _ _ _ (by simpa using hvb)]
      rw [heff1, hbal1]
  · rw [if_neg hsidx] at hrun
    exact Except.noConfusion (show Except.error _ = Except.ok post from hrun)

/-- Concrete run for the C5 counterexample (validator 0 is also the
proposer and default whistleblower). -/
def cSlashOut : BeaconState :=
  match slash_validator cCtx0 cSt0 0 none with
  | .ok s => s
  | .error _ => cSt0

/-- Claim C5 as stated is false when the slashed validator is the proposer
(and hence the default whistleblower): the whistleblower reward flows back,
so the balance is not decreased by exactly
`effective_balance / MIN_SLASHING_PENALTY_QUOTIENT` (it ends at
31 062 500 000 rather than 31 000 000 000 Gwei). -/
theorem slash_validator_balance_counterexample :
    slash_validator cCtx0 cSt0 0 none = .ok cSlashOut ∧
      cSlashOut.balances.getD 0 0 ≠
        cSt0.balances.getD 0 0 -
          (cSt0.validators.getD 0 default).effective_balance /
            MIN_SLASHING_PENALTY_QUOTIENT :=
  ⟨by rfl, by decide⟩

/-- Two-validator fixtures where the proposer (1) differs from the slashed
validator (0). -/
def cV1 : Validator :=
  ⟨8, 0, 31000000000, false, 0, 0, FAR_FUTURE_EPOCH, FAR_FUTURE_EPOCH⟩

def cSh1 : ShufflingEpoch := ⟨0, [0, 1], [0, 1], [[[0, 1]]]⟩

def cCtx1 : EpochsContext := ⟨[(7, 0), (8, 1)], [7, 8], [1], cSh1, cSh1, cSh1⟩

def cSt1 : BeaconState :=
  { cSt0 with validators := [cV0, cV1], balances := [32000000000, 31000000000] }

def cSlashOut1 : BeaconState :=
  match slash_validator cCtx1 cSt1 0 none with
  | .ok s => s
  | .error _ => cSt1

/-- Witness for C5 (amended) with a proposer distinct from the slashed
validator. -/
theorem slash_validator_spec_witness :
    0 < cSt1.balances.length ∧
      get_beacon_proposer cCtx1 cSt1.slot = .ok 1 ∧
      slash_validator cCtx1 cSt1 0 none = .ok cSlashOut1 ∧
      ((cSlashOut1.validators.getD 0 default).slashed = true ∧
        (cSlashOut1.validators.getD 0 default).withdrawable_epoch ≥
          cCtx1.current_shuffling.epoch + EPOCHS_PER_SLASHINGS_VECTOR ∧
        cSlashOut1.slashings.getD
            (cCtx1.current_shuffling.epoch % EPOCHS_PER_SLASHINGS_VECTOR) 0 =
          cSt1.slashings.getD
              (cCtx1.current_shuffling.epoch % EPOCHS_PER_SLASHINGS_VECTOR) 0 +
            (cSt1.validators.getD 0 default).effective_balance ∧
        ((1 : Nat) ≠ 0 → cSlashOut1.balances.getD 0 0 =
          cSt1.balances.getD 0 0 -
            (cSt1.validators.getD 0 default).effective_balance /
              MIN_SLASHING_PENALTY_QUOTIENT)) :=
  ⟨by decide, by rfl, by rfl,
    slash_validator_spec cCtx1 cSt1 0 1 cSlashOut1 (by decide) (by rfl) (by rfl)⟩

/-! ## Claim C4: `process_attester_slashing` acceptance gate -/

theorem is_slashable_attestation_data_iff (d1 d2 : AttestationData) :
    is_slashable_attestation_data d1 d2 = true ↔
      ((d1 ≠ d2 ∧ d1.target.epoch = d2.target.epoch) ∨
        (d1.source.epoch < d2.source.epoch ∧ d2.target.epoch < d1.target.epoch)) := by
  simp [is_slashable_attestation_data]

/-- Claim C4 (amended): `process_attester_slashing` accepts a pair of
indexed attestations only when they are a double vote (same target epoch,
different data) or a surround pair with `a1.source < a2.source` and
`a2.target < a1.target` — the source checks only these two epoch
comparisons, not the full chain `a2.source < a2.target` — and any pair
satisfying neither comparison is rejected before anyone is slashed. -/
theorem process_attester_slashing_spec (ext : Ext) (ctx : EpochsContext)
    (state : BeaconState) (asl : AttesterSlashing) :
    (∀ out, process_attester_slashing ext ctx state asl = .ok out →
      ((asl.attestation_1.data ≠ asl.attestation_2.data ∧
          asl.attestation_1.data.target.epoch = asl.attestation_2.data.target.epoch) ∨
        (asl.attestation_1.data.source.epoch < asl.attestation_2.data.source.epoch ∧
          asl.attestation_2.data.target.epoch < asl.attestation_1.data.target.epoch))) ∧
    (¬ ((asl.attestation_1.data ≠ asl.attestation_2.data ∧
          asl.attestation_1.data.target.epoch = asl.attestation_2.data.target.epoch) ∨
        (asl.attestation_1.data.source.epoch < asl.attestation_2.data.source.epoch ∧
          asl.attestation_2.data.target.epoch < asl.attestation_1.data.target.epoch)) →
      ∃ e, process_attester_slashing ext ctx state asl = .error e) := by
  constructor
  · intro out hrun
    by_cases hc : is_slashable_attestation_data asl.attestation_1.data
        asl.attestation_2.data = true
    · exact (is_slashable_attestation_data_iff _ _).mp hc
    · exfalso
      unfold process_attester_slashing at hrun
      rw [if_neg hc] at hrun
      exact Except.noConfusion (show Except.error _ = Except.ok out from hrun)
  · intro hnot
    refine ⟨"AssertionError: attestation pair not slashable", ?_⟩
    unfold process_attester_slashing
    rw [if_neg (fun hc => hnot ((is_slashable_attestation_data_iff _ _).mp hc))]
    rfl

/-- Attestation data pair: `a1.source < a2.source` and
`a2.target < a1.target` hold, but `a2.source < a2.target` fails
(`a2` votes source 5 → target 3). -/
def cAd1 : AttestationData := ⟨0, 0, [], ⟨0, []⟩, ⟨10, []⟩⟩

def cAd2 : AttestationData := ⟨0, 0, [], ⟨5, []⟩, ⟨3, []⟩⟩

def cAsl : AttesterSlashing := ⟨⟨[0], cAd1, 0⟩, ⟨[0], cAd2, 0⟩⟩

def cAslOutPair : BeaconState × EpochsContext :=
  match process_attester_slashing cExt cCtx0 cSt0 cAsl with
  | .ok sc => sc
  | .error _ => (cSt0, cCtx0)

/-- Claim C4 as stated is false: this concrete pair is neither a double
vote nor a surround vote satisfying the full chain
`a1.source < a2.source < a2.target < a1.target` (because
`a2.source = 5 ≥ 3 = a2.target`), yet `process_attester_slashing` accepts it
and slashes validator 0. -/
theorem process_attester_slashing_counterexample :
    process_attester_slashing cExt cCtx0 cSt0 cAsl = .ok cAslOutPair ∧
      ¬ ((cAd1 ≠ cAd2 ∧ cAd1.target.epoch = cAd2.target.epoch) ∨
        (cAd1.source.epoch < cAd2.source.epoch ∧
          cAd2.source.epoch < cAd2.target.epoch ∧
          cAd2.target.epoch < cAd1.target.epoch)) :=
  ⟨by rfl, by decide⟩

/-- A pair satisfying neither acceptance condition (identical data). -/
def cAslBad : AttesterSlashing := ⟨⟨[0], cAd1, 0⟩, ⟨[0], cAd1, 0⟩⟩

/-- Witness for C4 (amended): the rejection branch at a concrete
non-slashable pair. -/
theorem process_attester_slashing_spec_witness :
    ∃ e, process_attester_slashing cExt cCtx0 cSt0 cAslBad = .error e :=
  (process_attester_slashing_spec cExt cCtx0 cSt0 cAslBad).2 (by decide)

/-! ## Claim C3: `process_justification_and_finalization` -/

theorem ok_bind {α β : Type} (a : α) (f : α → Except String β) :
    (Except.ok a >>= f) = f a := rfl

theorem pure_bind_ex {α β : Type} (a : α) (f : α → Except String β) :
    ((pure a : Except String α) >>= f) = f a := rfl

theorem pure_ok {α : Type} {a b : α} (h : (pure a : Except String α) = .ok b) :
    a = b := Except.ok.inj h

theorem get_block_root_prev_just (state : BeaconState) (c : Checkpoint) (e : Nat) :
    get_block_root { state with previous_justified_checkpoint := c } e =
      get_block_root state e := rfl

theorem jb_of_fin_ite (c : Prop) [Decidable c] (s : BeaconState) (cp : Checkpoint) :
    (if c then { s with finalized_checkpoint := cp } else s).justification_bits =
      s.justification_bits := by
  split <;> rfl

theorem cj_of_fin_ite (c : Prop) [Decidable c] (s : BeaconState) (cp : Checkpoint) :
    (if c then { s with finalized_checkpoint := cp } else s).current_justified_checkpoint =
      s.current_justified_checkpoint := by
  split <;> rfl

theorem apply_finalization_jb (op oc : Checkpoint) (ce : Nat) (bits : List Bool)
    (s : BeaconState) :
    (apply_finalization op oc ce bits s).justification_bits =
      s.justification_bits := by
  unfold apply_finalization
  rw [jb_of_fin_ite, jb_of_fin_ite, jb_of_fin_ite, jb_of_fin_ite]

theorem apply_finalization_cj (op oc : Checkpoint) (ce : Nat) (bits : List Bool)
    (s : BeaconState) :
    (apply_finalization op oc ce bits s).current_justified_checkpoint =
      s.current_justified_checkpoint := by
  unfold apply_finalization
  rw [cj_of_fin_ite, cj_of_fin_ite, cj_of_fin_ite, cj_of_fin_ite]

/-- Claim C3 (amended): when the current epoch is at most
`GENESIS_EPOCH + 1` the state is returned unchanged.  When the current epoch
is larger and the previous-epoch unslashed target stake times 3 is at least
the total active stake times 2, the post-state has bit 1 of the
justification bit-vector set, and — unless the current-epoch target
condition also holds, in which case the checkpoint is further overwritten
with `(current_epoch, …)` — its `current_justified_checkpoint` is
`(previous_epoch, block root at the start slot of the previous epoch)`. -/
theorem process_justification_spec (process : EpochProcess) (state : BeaconState) :
    (process.current_epoch ≤ GENESIS_EPOCH + 1 →
      process_justification_and_finalization process state = .ok state) ∧
    (∀ post root,
      GENESIS_EPOCH + 1 < process.current_epoch →
      process.prev_epoch_unslashed_stake.target_stake * 3 ≥
        process.total_active_stake * 2 →
      get_block_root state process.prev_epoch = .ok root →
      process_justification_and_finalization process state = .ok post →
      post.justification_bits.getD 1 false = true ∧
        (¬ (process.curr_epoch_unslashed_target_stake * 3 ≥
            process.total_active_stake * 2) →
          post.current_justified_checkpoint = ⟨process.prev_epoch, root⟩)) := by
  constructor
  · intro hle
    unfold process_justification_and_finalization
    rw [if_pos hle]
    rfl
  · intro post root hgt hstake hroot hrun
    unfold process_justification_and_finalization at hrun
    rw [if_neg (by omega)] at hrun
    rw [if_pos hstake] at hrun
    rw [except_bind_ok] at hrun
    obtain ⟨root1, hroot1, hrun⟩ := hrun
    rw [get_block_root_prev_just, hroot] at hroot1
    have hr1 : root1 = root := (Except.ok.inj hroot1).symm
    subst hr1
    try dsimp only at hrun
    try rw [pure_bind_ex] at hrun
    try dsimp only at hrun
    by_cases hcond2 : process.curr_epoch_unslashed_target_stake * 3 ≥
        process.total_active_stake * 2
    · rw [if_pos hcond2] at hrun
      rw [except_bind_ok] at hrun
      obtain ⟨root2, _hroot2, hrun⟩ := hrun
      try dsimp only at hrun
      try rw [pure_bind_ex] at hrun
      try dsimp only at hrun
      by_cases hlen : (((false :: state.justification_bits.dropLast).set 1 true).set 0
          true).length = 4
      · rw [if_pos hlen] at hrun
        have hpost := unless_pure_ok.mp hrun
        rw [← hpost]
        constructor
        · rw [apply_finalization_jb]
          dsimp only
          rw [getD_set_ne _ _ _ 0 1 (by omega)]
          rw [getD_set_self _ _ _ _ (by simp at hlen ⊢; omega)]
        · intro hc2
          exact absurd hcond2 hc2
      · rw [if_neg hlen] at hrun
        exact Except.noConfusion (show Except.error _ = Except.ok post from hrun)
    · rw [if_neg hcond2] at hrun
      try rw [pure_bind_ex] at hrun
      try dsimp only at hrun
      by_cases hlen : ((false :: state.justification_bits.dropLast).set 1 true).length = 4
      · rw [if_pos hlen] at hrun
        have hpost := unless_pure_ok.mp hrun
        rw [← hpost]
        constructor
        · rw [apply_finalization_jb]
          dsimp only
          rw [getD_set_self _ _ _ _ (by simp at hlen ⊢; omega)]
        · intro _hc2
          rw [apply_finalization_cj]
      · rw [if_neg hlen] at hrun
        exact Except.noConfusion (show Except.error _ = Except.ok post from hrun)

/-- Epoch-process fixture at current epoch 2 where both the previous-epoch
and the current-epoch target conditions hold (2·3 ≥ 3·2). -/
def cEp3 : EpochProcess where
  prev_epoch := 1
  current_epoch := 2
  statuses := []
  total_active_stake := 3
  prev_epoch_unslashed_stake := ⟨2, 2, 2⟩
  curr_epoch_unslashed_target_stake := 2
  active_validators := 0
  indices_to_slash := []
  indices_to_set_activation_eligibility := []
  indices_to_maybe_activate := []
  indices_to_eject := []
  exit_queue_end := 0
  exit_queue_end_churn := 0
  churn_limit := 0

def cSt3 : BeaconState :=
  { cSt0 with slot := 65, block_roots := List.replicate 70 [] }

def cJfOut : BeaconState :=
  match process_justification_and_finalization cEp3 cSt3 with
  | .ok s => s
  | .error _ => cSt3

/-- Claim C3 as stated is false: when the current-epoch target condition
holds as well, the post-state's `current_justified_checkpoint` is
`(current_epoch, …)`, not `(previous_epoch, …)`, because the second
justification update overwrites the first. -/
theorem process_justification_counterexample :
    process_justification_and_finalization cEp3 cSt3 = .ok cJfOut ∧
      GENESIS_EPOCH + 1 < cEp3.current_epoch ∧
      cEp3.prev_epoch_unslashed_stake.target_stake * 3 ≥
        cEp3.total_active_stake * 2 ∧
      cJfOut.current_justified_checkpoint.epoch ≠ cEp3.prev_epoch :=
  ⟨by rfl, by decide, by decide, by decide⟩

/-- Same fixture with the current-epoch condition off. -/
def cEp3b : EpochProcess := { cEp3 with curr_epoch_unslashed_target_stake := 0 }

def cJfOut2 : BeaconState :=
  match process_justification_and_finalization cEp3b cSt3 with
  | .ok s => s
  | .error _ => cSt3

/-- Witness for C3 (amended) at a concrete state where only the
previous-epoch condition holds. -/
theorem process_justification_spec_witness :
    GENESIS_EPOCH + 1 < cEp3b.current_epoch ∧
      cEp3b.prev_epoch_unslashed_stake.target_stake * 3 ≥
        cEp3b.total_active_stake * 2 ∧
      get_block_root cSt3 cEp3b.prev_epoch = .ok [] ∧
      process_justification_and_finalization cEp3b cSt3 = .ok cJfOut2 ∧
      (cJfOut2.justification_bits.getD 1 false = true ∧
        (¬ (cEp3b.curr_epoch_unslashed_target_stake * 3 ≥
            cEp3b.total_active_stake * 2) →
          cJfOut2.current_justified_checkpoint = ⟨cEp3b.prev_epoch, []⟩)) :=
  ⟨by decide, by decide, by rfl, by rfl,
    (process_justification_spec cEp3b cSt3).2 cJfOut2 [] (by decide) (by decide)
      (by rfl) (by rfl)⟩

/-! ## Claim C6: `process_operations` gate and operation order -/

/-- Claim C6: `process_operations` aborts — before touching any operation —
with the deposit-count assertion unless the number of deposits in the body
equals `min(MAX_DEPOSITS, eth1_data.deposit_count − eth1_deposit_index)`
(computed over ℤ, as Python's unbounded subtraction can go negative); when
the gate passes, the five operation classes are folded sequentially in the
fixed order proposer-slashings, attester-slashings, attestations, deposits,
voluntary-exits. -/
theorem process_operations_spec (ext : Ext) (ctx : EpochsContext)
    (state : BeaconState) (body : BeaconBlockBody) :
    (¬ ((body.deposits.length : Int) =
        min (MAX_DEPOSITS : Int)
          ((state.eth1_data.deposit_count : Int) - (state.eth1_deposit_index : Int))) →
      process_operations ext ctx state body =
        .error "AssertionError: deposits count mismatch") ∧
    (((body.deposits.length : Int) =
        min (MAX_DEPOSITS : Int)
          ((state.eth1_data.deposit_count : Int) - (state.eth1_deposit_index : Int))) →
      process_operations ext ctx state body = do
        let sc1 ← applyOps (process_proposer_slashing ext) (state, ctx)
          body.proposer_slashings
        let sc2 ← applyOps (process_attester_slashing ext) sc1 body.attester_slashings
        let sc3 ← applyOps (process_attestation ext) sc2 body.attestations
        let sc4 ← applyOps (process_deposit ext) sc3 body.deposits
        applyOps (process_voluntary_exit ext) sc4 body.voluntary_exits) := by
  constructor
  · intro h
    unfold process_operations
    rw [if_neg h]
    rfl
  · intro h
    unfold process_operations
    rw [if_pos h]
    rfl

/-- State whose eth1 data announces five pending deposits. -/
def cSt6 : BeaconState := { cSt0 with eth1_data := ⟨[], 5, []⟩ }

def cBody0 : BeaconBlockBody := ⟨[], [], [], [], []⟩

/-- Witness for C6: a block carrying zero deposits against a state with
five outstanding deposits is rejected. -/
theorem process_operations_spec_witness :
    process_operations cExt cCtx0 cSt6 cBody0 =
      .error "AssertionError: deposits count mismatch" :=
  (process_operations_spec cExt cCtx0 cSt6 cBody0).1 (by decide)

/-! ## Beam downloader (src/trinity/sync/beam/state.py)

The downloader's cooperative concurrency is embedded as a trace semantics:
a `Wake` records one firing of the shared new-data event — the value of the
`time.monotonic() - start_time < timeout` guard read before the wait, and
the store contents observed after waking.  A run of
`_node_hashes_present` consumes wakes in order; when the trace is exhausted
while the loop would continue, the coroutine is blocked waiting on the
event, modelled by returning the current remaining set (the count theorems
only use that every removed hash was observed present at a processed
wake). -/

structure Wake where
  withinTimeout : Bool
  db : List (List Nat)
deriving Repr, DecidableEq

/-- The downloader state touched by the embedded operations: the local
store keys, the two task queues, and the peer-tuning counters. -/
structure DLState where
  db : List (List Nat)
  node_tasks : List (List Nat)
  maybe_useful_nodes : List (List Nat)
  spread_factor : Int
  num_peers : Int
  min_predictive_peers : Int
deriving Repr, DecidableEq

/-- Modelled from the spec: `eth_utils.clamp(lower, upper, value)` (not
under src/). -/
def clamp (lo hi v : Int) : Int := min hi (max lo v)

/-- `BeamDownloader._max_spread_beam_factor`. -/
def _max_spread_beam_factor (s : DLState) : Int :=
  max 0 (s.num_peers - 1 - s.min_predictive_peers)

/-- `BeamDownloader._is_node_missing`: `ValidationError` on a hash that is
not 32 bytes, otherwise store lookup. -/
def _is_node_missing (s : DLState) (node_hash : List Nat) : Except String Bool :=
  if node_hash.length ≠ 32 then throw "ValidationError"
  else return !(s.db.contains node_hash)

/-- The `while remaining_hashes and time.monotonic() - start_time < timeout`
loop of `_node_hashes_present`, one wake per iteration. -/
def nodeHashesLoop : List (List Nat) → List Wake → List (List Nat)
  | remaining, [] => remaining
  | remaining, w :: ws =>
    if remaining.isEmpty then remaining
    else if ¬ w.withinTimeout then remaining
    else nodeHashesLoop (remaining.filter fun h => !(w.db.contains h)) ws

/-- `BeamDownloader._node_hashes_present(node_hashes, timeout)`: the number
of supplied hashes that were observed in the store before the loop ended
(`len(node_hashes) - len(remaining_hashes)`). -/
def _node_hashes_present (node_hashes : List (List Nat)) (wakes : List Wake) : Nat :=
  node_hashes.length - (nodeHashesLoop node_hashes wakes).length

/-- `BeamDownloader._wait_for_nodes(node_hashes, queue, timeout)`: raise on
malformed hashes, compute the missing set, enqueue the unrequested ones,
and wait.  `urgentQueue` selects `_node_tasks` versus `_maybe_useful_nodes`.
The missing set — `set(h for h in node_hashes if self._is_node_missing(h))`
— is the deduplicated list of supplied hashes absent from the store. -/
def _wait_for_nodes (s : DLState) (node_hashes : List (List Nat))
    (urgentQueue : Bool) (wakes : List Wake) : Except String (Nat × DLState) := do
  let _ ← node_hashes.mapM fun h => _is_node_missing s h
  let missing_nodes := (node_hashes.filter fun h => !(s.db.contains h)).dedup
  let queue := if urgentQueue then s.node_tasks else s.maybe_useful_nodes
  let unrequested_nodes := missing_nodes.filter fun h => !(queue.contains h)
  if ¬ missing_nodes.isEmpty then
    let s1 :=
      if ¬ unrequested_nodes.isEmpty then
        if urgentQueue then { s with node_tasks := queue ++ unrequested_nodes }
        else { s with maybe_useful_nodes := queue ++ unrequested_nodes }
      else s
    return (_node_hashes_present missing_nodes wakes, s1)
  else
    return (0, s)

/-- `BeamDownloader.ensure_nodes_present(node_hashes, urgent)`.
`elapsedTooLong` is the observed
`t.elapsed > MAX_ACCEPTABLE_WAIT_FOR_URGENT_NODE` timer comparison.  (When
the clamped spread factor equals the old one the Python skips the
assignment and the tracker call; the stored value is the same either
way.) -/
def ensure_nodes_present (s : DLState) (node_hashes : List (List Nat))
    (urgent : Bool) (wakes : List Wake) (elapsedTooLong : Bool) :
    Except String (Nat × DLState) := do
  if urgent then
    let (num_nodes_found, s1) ← _wait_for_nodes s node_hashes true wakes
    if node_hashes.length = 1 ∧ elapsedTooLong = true then
      let new_spread_factor := clamp 0 (_max_spread_beam_factor s1)
        (s1.spread_factor + 1)
      return (num_nodes_found, { s1 with spread_factor := new_spread_factor })
    else
      return (num_nodes_found, s1)
  else
    let (num_nodes_found, s1) ← _wait_for_nodes s node_hashes false wakes
    return (num_nodes_found, s1)

/-- One firing of `BeamDownloader._reduce_spread_factor` (the body executed
after each two-minute sleep). -/
def _reduce_spread_factor_step (s : DLState) : DLState :=
  if s.spread_factor > 0 then { s with spread_factor := s.spread_factor - 1 }
  else s

/-! ### Proof layer for the downloader -/

/-- The missing set computed by `_wait_for_nodes`. -/
def missingNodes (s : DLState) (node_hashes : List (List Nat)) : List (List Nat) :=
  (node_hashes.filter fun h => !(s.db.contains h)).dedup

theorem nodeHashesLoop_nil (wakes : List Wake) : nodeHashesLoop [] wakes = [] := by
  cases wakes <;> simp [nodeHashesLoop]

theorem nodeHashesLoop_eq_filter (wakes : List Wake) :
    ∀ rem : List (List Nat), ∃ p : List Nat → Bool,
      nodeHashesLoop rem wakes = rem.filter p := by
  induction wakes with
  | nil => intro rem; exact ⟨fun _ => true, by simp [nodeHashesLoop]⟩
  | cons w ws ih =>
    intro rem
    unfold nodeHashesLoop
    by_cases hre : rem.isEmpty
    · exact ⟨fun _ => true, by simp [hre]⟩
    · by_cases hwt : w.withinTimeout
      · obtain ⟨p, hp⟩ := ih (rem.filter fun h => !(w.db.contains h))
        refine ⟨fun h => (!(w.db.contains h)) && p h, ?_⟩
        simp only [hre, hwt, not_true, if_false, Bool.false_eq_true, if_neg]
        rw [hp, List.filter_filter]
        exact List.filter_congr fun x _ => by rw [Bool.and_comm]
      · exact ⟨fun _ => true, by simp [hre, hwt]⟩

theorem filter_not_length {α : Type} (p : α → Bool) (l : List α) :
    (l.filter fun x => !(p x)).length + (l.filter p).length = l.length := by
  induction l with
  | nil => rfl
  | cons a l ih =>
    by_cases h : p a <;> simp [List.filter_cons, h] <;> omega

theorem nodeHashesLoop_removed (wakes : List Wake) :
    ∀ (rem : List (List Nat)) (h : List Nat), h ∈ rem →
      h ∉ nodeHashesLoop rem wakes →
      ∃ w ∈ wakes, w.withinTimeout = true ∧ h ∈ w.db := by
  induction wakes with
  | nil => intro rem h hin hout; exact absurd hin hout
  | cons w ws ih =>
    intro rem h hin hout
    unfold nodeHashesLoop at hout
    by_cases hre : rem.isEmpty
    · rw [if_pos hre] at hout
      exact absurd hin hout
    · rw [if_neg hre] at hout
      by_cases hwt : w.withinTimeout
      · rw [if_neg (by simp [hwt])] at hout
        by_cases hmem : h ∈ rem.filter fun x => !(w.db.contains x)
        · obtain ⟨w2, hw2, hrest⟩ := ih _ h hmem hout
          exact ⟨w2, List.mem_cons_of_mem w hw2, hrest⟩
        · refine ⟨w, List.mem_cons_self w ws, hwt, ?_⟩
          rw [List.mem_filter] at hmem
          push_neg at hmem
          have := hmem hin
          simpa using this
      · rw [if_pos (by simpa using hwt)] at hout
        exact absurd hin hout

theorem count_as_filter (missing : List (List Nat)) (wakes : List Wake) :
    _node_hashes_present missing wakes =
      (missing.filter fun h =>
        !((nodeHashesLoop missing wakes).contains h)).length ∧
    (nodeHashesLoop missing wakes).length ≤ missing.length := by
  obtain ⟨p, hp⟩ := nodeHashesLoop_eq_filter wakes missing
  have hcongr : (missing.filter fun h => !((nodeHashesLoop missing wakes).contains h)) =
      missing.filter fun h => !(p h) := by
    refine List.filter_congr fun x hx => ?_
    rw [hp]
    by_cases hpx : p x <;> simp [List.mem_filter, hx, hpx]
  have hflen := filter_not_length p missing
  constructor
  · rw [hcongr]
    unfold _node_hashes_present
    rw [hp]
    omega
  · rw [hp]
    exact List.length_filter_le p missing

theorem mapM_is_node_missing_ok (s : DLState) :
    ∀ (node_hashes : List (List Nat)), (∀ h ∈ node_hashes, h.length = 32) →
      ∃ bs, node_hashes.mapM (fun h => _is_node_missing s h) = .ok bs := by
  intro node_hashes
  induction node_hashes with
  | nil => intro _; exact ⟨[], rfl⟩
  | cons h t ih =>
    intro hlen
    obtain ⟨bs, hbs⟩ := ih fun x hx => hlen x (List.mem_cons_of_mem h hx)
    refine ⟨(!(s.db.contains h)) :: bs, ?_⟩
    rw [List.mapM_cons]
    have hh : _is_node_missing s h = .ok (!(s.db.contains h)) := by
      unfold _is_node_missing
      rw [if_neg (by simp [hlen h (List.mem_cons_self h t)])]
      rfl
    rw [hh, hbs]
    rfl

theorem wait_for_nodes_ok (s : DLState) (node_hashes : List (List Nat))
    (uq : Bool) (wakes : List Wake)
    (hlen : ∀ h ∈ node_hashes, h.length = 32) :
    ∃ s1, _wait_for_nodes s node_hashes uq wakes =
        .ok (_node_hashes_present (missingNodes s node_hashes) wakes, s1) ∧
      s1.spread_factor = s.spread_factor ∧ s1.num_peers = s.num_peers ∧
      s1.min_predictive_peers = s.min_predictive_peers ∧ s1.db = s.db := by
  obtain ⟨bs, hbs⟩ := mapM_is_node_missing_ok s node_hashes hlen
  unfold _wait_for_nodes
  rw [hbs, ok_bind]
  by_cases hmiss : ((node_hashes.filter fun h => !(s.db.contains h)).dedup).isEmpty
  · rw [if_neg (by simpa using hmiss)]
    refine ⟨s, ?_, rfl, rfl, rfl, rfl⟩
    have hempty : missingNodes s node_hashes = [] := by
      unfold missingNodes
      exact List.isEmpty_iff.mp hmiss
    rw [hempty]
    show Except.ok (0, s) = Except.ok (_node_hashes_present [] wakes, s)
    rw [show _node_hashes_present [] wakes = 0 from by
      unfold _node_hashes_present
      rw [nodeHashesLoop_nil]
      rfl]
  · rw [if_pos (by simpa using hmiss)]
    refine ⟨_, rfl, ?_, ?_, ?_, ?_⟩ <;> (repeat' split) <;> rfl

/-- Claim C8: `ensure_nodes_present` never raises on timeout — for
well-formed (32-byte) hashes it returns a count: the number of requested
hashes that were initially missing from the store and were observed present
at a processed wake-up before the loop ended; the count is at most the
number of requested hashes; every counted hash was seen in the store at a
within-timeout wake; and the count equals the number of missing hashes
exactly when no hash remained, so a timeout is observable only as a count
smaller than the number of missing hashes. -/
theorem ensure_nodes_present_spec (s : DLState) (node_hashes : List (List Nat))
    (urgent : Bool) (wakes : List Wake) (tooLong : Bool)
    (hlen : ∀ h ∈ node_hashes, h.length = 32) :
    ∃ n s1, ensure_nodes_present s node_hashes urgent wakes tooLong = .ok (n, s1) ∧
      n = _node_hashes_present (missingNodes s node_hashes) wakes ∧
      n ≤ node_hashes.length ∧
      n = ((missingNodes s node_hashes).filter fun h =>
        !((nodeHashesLoop (missingNodes s node_hashes) wakes).contains h)).length ∧
      (∀ h ∈ missingNodes s node_hashes,
        h ∉ nodeHashesLoop (missingNodes s node_hashes) wakes →
        ∃ w ∈ wakes, w.withinTimeout = true ∧ h ∈ w.db) ∧
      (n = (missingNodes s node_hashes).length ↔
        nodeHashesLoop (missingNodes s node_hashes) wakes = []) := by
  obtain ⟨s1, hw, _⟩ := wait_for_nodes_ok s node_hashes urgent wakes hlen
  have hcount := count_as_filter (missingNodes s node_hashes) wakes
  have hmlen : (missingNodes s node_hashes).length ≤ node_hashes.length :=
    le_trans (List.Sublist.length_le (List.dedup_sublist _))
      (List.length_filter_le _ _)
  have hparts : _node_hashes_present (missingNodes s node_hashes) wakes ≤
        node_hashes.length ∧
      (_node_hashes_present (missingNodes s node_hashes) wakes =
          (missingNodes s node_hashes).length ↔
        nodeHashesLoop (missingNodes s node_hashes) wakes = []) := by
    constructor
    · unfold _node_hashes_present
      omega
    · unfold _node_hashes_present
      rw [← List.length_eq_zero]
      omega
  have hfound := fun h hm ho =>
    nodeHashesLoop_removed wakes (missingNodes s node_hashes) h hm ho
  unfold ensure_nodes_present
  cases urgent with
  | false =>
    rw [if_neg (by simp : ¬(false = true))]
    rw [hw, ok_bind]
    exact ⟨_, s1, rfl, rfl, hparts.1, hcount.1, hfound, hparts.2⟩
  | true =>
    rw [if_pos rfl]
    rw [hw, ok_bind]
    dsimp only
    by_cases hone : node_hashes.length = 1 ∧ tooLong = true
    · rw [if_pos hone]
      exact ⟨_, _, rfl, rfl, hparts.1, hcount.1, hfound, hparts.2⟩
    · rw [if_neg hone]
      exact ⟨_, s1, rfl, rfl, hparts.1, hcount.1, hfound, hparts.2⟩

/-- Claim C9: the spread factor stays within
`[0, max 0 (num_peers - 1 - min_predictive_peers)]`: the increase performed
by `ensure_nodes_present` on a slow single urgent node clamps the new value
into that interval (whose upper bound is itself clamped at zero, hence the
factor is forced to zero, when `num_peers <= 1 + min_predictive_peers`),
and the periodic reducer decrements exactly when the factor is strictly
positive and otherwise leaves the state unchanged. -/
theorem spread_factor_spec (s : DLState) (node_hashes : List (List Nat))
    (wakes : List Wake) (n : Nat) (s1 : DLState)
    (hlen : ∀ h ∈ node_hashes, h.length = 32)
    (hone : node_hashes.length = 1)
    (hrun : ensure_nodes_present s node_hashes true wakes true = .ok (n, s1)) :
    s1.spread_factor = clamp 0 (_max_spread_beam_factor s) (s.spread_factor + 1) ∧
    0 ≤ s1.spread_factor ∧
    s1.spread_factor ≤ max 0 (s.num_peers - 1 - s.min_predictive_peers) ∧
    (s.num_peers ≤ 1 + s.min_predictive_peers →
      _max_spread_beam_factor s = 0 ∧ s1.spread_factor = 0) ∧
    (0 < s.spread_factor →
      (_reduce_spread_factor_step s).spread_factor = s.spread_factor - 1) ∧
    (s.spread_factor ≤ 0 → _reduce_spread_factor_step s = s) := by
  obtain ⟨s2, hw, hsp, hnp, hmp, _⟩ := wait_for_nodes_ok s node_hashes true wakes hlen
  unfold ensure_nodes_present at hrun
  rw [if_pos rfl, hw, ok_bind] at hrun
  dsimp only at hrun
  rw [if_pos ⟨hone, rfl⟩] at hrun
  have hpair := Except.ok.inj hrun
  have hs1 : s1 = { s2 with
      spread_factor := clamp 0 (_max_spread_beam_factor s2) (s2.spread_factor + 1) } :=
    (congrArg Prod.snd hpair).symm
  have hmax : _max_spread_beam_factor s2 = _max_spread_beam_factor s := by
    unfold _max_spread_beam_factor
    rw [hnp, hmp]
  have hval : s1.spread_factor =
      clamp 0 (_max_spread_beam_factor s) (s.spread_factor + 1) := by
    rw [hs1]
    show clamp 0 (_max_spread_beam_factor s2) (s2.spread_factor + 1) = _
    rw [hmax, hsp]
  refine ⟨hval, ?_, ?_, ?_, ?_, ?_⟩
  · rw [hval]
    unfold clamp _max_spread_beam_factor
    omega
  · rw [hval]
    unfold clamp _max_spread_beam_factor
    omega
  · intro hle
    have hz : _max_spread_beam_factor s = 0 := by
      unfold _max_spread_beam_factor
      omega
    refine ⟨hz, ?_⟩
    rw [hval, hz]
    unfold clamp
    omega
  · intro hpos
    unfold _reduce_spread_factor_step
    rw [if_pos hpos]
  · intro hle
    unfold _reduce_spread_factor_step
    rw [if_neg (by omega)]

/-! ### Downloader fixtures and witnesses -/

def cHashA : List Nat := List.replicate 32 1

def cHashB : List Nat := List.replicate 32 2

def cDL8 : DLState :=
  { db := [cHashA], node_tasks := [], maybe_useful_nodes := [],
    spread_factor := 0, num_peers := 3, min_predictive_peers := 0 }

def cWake8 : Wake := { withinTimeout := true, db := [cHashA, cHashB] }

theorem ensure_nodes_present_spec_witness :
    (∀ h ∈ [cHashA, cHashB], h.length = 32) ∧
    (∃ n s1, ensure_nodes_present cDL8 [cHashA, cHashB] true [cWake8] false =
        .ok (n, s1) ∧
      n = _node_hashes_present (missingNodes cDL8 [cHashA, cHashB]) [cWake8] ∧
      n ≤ [cHashA, cHashB].length ∧
      n = ((missingNodes cDL8 [cHashA, cHashB]).filter fun h =>
        !((nodeHashesLoop (missingNodes cDL8 [cHashA, cHashB]) [cWake8]).contains h)).length ∧
      (∀ h ∈ missingNodes cDL8 [cHashA, cHashB],
        h ∉ nodeHashesLoop (missingNodes cDL8 [cHashA, cHashB]) [cWake8] →
        ∃ w ∈ [cWake8], w.withinTimeout = true ∧ h ∈ w.db) ∧
      (n = (missingNodes cDL8 [cHashA, cHashB]).length ↔
        nodeHashesLoop (missingNodes cDL8 [cHashA, cHashB]) [cWake8] = [])) :=
  ⟨by decide, ensure_nodes_present_spec cDL8 [cHashA, cHashB] true [cWake8] false
    (by decide)⟩

def cDL9 : DLState :=
  { db := [], node_tasks := [], maybe_useful_nodes := [],
    spread_factor := 0, num_peers := 3, min_predictive_peers := 0 }

def cOut9 : Nat × DLState :=
  match ensure_nodes_present cDL9 [cHashB] true [] true with
  | .ok p => p
  | .error _ => (0, cDL9)

theorem spread_factor_spec_witness :
    (∀ h ∈ [cHashB], h.length = 32) ∧ [cHashB].length = 1 ∧
    ensure_nodes_present cDL9 [cHashB] true [] true = .ok (cOut9.1, cOut9.2) ∧
    (cOut9.2.spread_factor =
        clamp 0 (_max_spread_beam_factor cDL9) (cDL9.spread_factor + 1) ∧
      0 ≤ cOut9.2.spread_factor ∧
      cOut9.2.spread_factor ≤
        max 0 (cDL9.num_peers - 1 - cDL9.min_predictive_peers) ∧
      (cDL9.num_peers ≤ 1 + cDL9.min_predictive_peers →
        _max_spread_beam_factor cDL9 = 0 ∧ cOut9.2.spread_factor = 0) ∧
      (0 < cDL9.spread_factor →
        (_reduce_spread_factor_step cDL9).spread_factor =
          cDL9.spread_factor - 1) ∧
      (cDL9.spread_factor ≤ 0 → _reduce_spread_factor_step cDL9 = cDL9)) :=
  ⟨by decide, rfl, by rfl,
    spread_factor_spec cDL9 [cHashB] [] cOut9.1 cOut9.2 (by decide) rfl (by rfl)⟩

end Trinity
